import Mathlib

/-!
Verification of the k8s-infra-offload fragment: the SR-IOV interface
namespace migrator (pkg/netconf/sriov.go) and the liveness-aggregation
health gateway (pkg/healthserver).

The migrator is embedded as an interpreter over an explicit kernel state:
every netlink/namespace call is recorded in a trace, and an oracle decides
which kernel calls fail (fault injection).  Pure Go helpers in the
healthserver are embedded as pure functions.
-/

namespace Offload

/-- A kernel network link (one entry of the kernel's link table).
`netns` is the namespace the link currently lives in; the host namespace
is modelled as the empty string. -/
structure Link where
  idx : Nat
  name : String
  netns : String
  mtu : Int
  isUp : Bool
  deriving DecidableEq, Repr

/-- A netlink handle as obtained from `netlink.LinkByName`: a snapshot
reference to a link.  Besides the kernel index it records the namespace
context in which the lookup ran (the namespace the handle was resolved
in), which is what distinguishes the handle resolved in the host
namespace from the handle re-resolved inside the target namespace. -/
structure LinkHandle where
  idx : Nat
  resolvedIn : String
  deriving DecidableEq, Repr

/-- A resolved network-namespace handle, as returned by `ns.GetNS`. -/
structure NsHandle where
  path : String
  deriving DecidableEq, Repr

/-- One kernel call issued by the migrator.  The constructors mirror the
netlink / ns operations used in `DoSriovNetwork` and
`configureSriovNamespace`.  `addrAdd`/`routeAdd` carry the list index of
the entry being applied. -/
inductive KernelCall where
  | getNS (path : String)
  | linkByName (inNs : String) (name : String)
  | linkSetDown (h : LinkHandle)
  | linkSetMTU (h : LinkHandle) (mtu : Int)
  | linkSetNsFd (h : LinkHandle) (target : String)
  | linkSetName (h : LinkHandle) (name : String)
  | addrAdd (h : LinkHandle) (i : Nat) (addr : String)
  | linkSetUp (h : LinkHandle)
  | routeAdd (h : LinkHandle) (i : Nat) (rt : String)
  deriving DecidableEq, Repr

/-- Go error values as they flow out of the migrator:
`kernel c` is the raw error returned by the failing kernel call `c`;
`wrap ctx e` is Go's `fmt.Errorf("ctx: %w", e)`;
`nsErr e` models `newNsError(e)` (defined in pkg/netconf outside src/:
by its use it wraps the error returned from the namespace-scoped phase). -/
inductive GoError where
  | kernel (c : KernelCall)
  | wrap (ctx : String) (e : GoError)
  | nsErr (e : GoError)
  deriving DecidableEq, Repr

/-- The innermost kernel call an error was built from. -/
def GoError.cause : GoError → KernelCall
  | .kernel c => c
  | .wrap _ e => e.cause
  | .nsErr e => e.cause

/-- True when the error is not the bare kernel error, i.e. some wrapper
was added around the underlying kernel-call failure. -/
def GoError.isContextWrapped : GoError → Bool
  | .kernel _ => false
  | .wrap _ _ => true
  | .nsErr _ => true

/-- The kernel networking state visible to the migrator: the set of
network namespaces, the link table, and the per-link address and route
tables (stored as (link index, entry) pairs in application order). -/
structure Kernel where
  namespaces : List String
  links : List Link
  addrs : List (Nat × String)
  routes : List (Nat × String)
  deriving DecidableEq, Repr

/-- Fault-injection oracle: decides which kernel calls return an error. -/
def Oracle := KernelCall → Bool

instance {ε α : Type} [DecidableEq ε] [DecidableEq α] : DecidableEq (Except ε α) := fun x y =>
  match x, y with
  | .ok a, .ok b => decidable_of_iff (a = b) (by simp)
  | .error a, .error b => decidable_of_iff (a = b) (by simp)
  | .ok _, .error _ => isFalse (by simp)
  | .error _, .ok _ => isFalse (by simp)

/-- Result of running a (possibly partial) sequence of kernel calls:
the Go return value, the kernel state afterwards, and the trace of the
kernel calls that were attempted (in order). -/
structure Res (α : Type) where
  out : Except GoError α
  kernel : Kernel
  trace : List KernelCall
  deriving DecidableEq, Repr

/-- The host network namespace (the one the agent process runs in). -/
def hostNs : String := ""

/-- Update every link with the given kernel index. -/
def Kernel.updLink (k : Kernel) (i : Nat) (f : Link → Link) : Kernel :=
  { k with links := k.links.map (fun l => if l.idx == i then f l else l) }

/-- The state effect of a *successful* kernel call. -/
def applyCall (k : Kernel) : KernelCall → Kernel
  | .getNS _ => k
  | .linkByName _ _ => k
  | .linkSetDown h => k.updLink h.idx (fun l => { l with isUp := false })
  | .linkSetMTU h m => k.updLink h.idx (fun l => { l with mtu := m })
  | .linkSetNsFd h t => k.updLink h.idx (fun l => { l with netns := t })
  | .linkSetName h n => k.updLink h.idx (fun l => { l with name := n })
  | .addrAdd h _ a => { k with addrs := k.addrs ++ [(h.idx, a)] }
  | .linkSetUp h => k.updLink h.idx (fun l => { l with isUp := true })
  | .routeAdd h _ rt => { k with routes := k.routes ++ [(h.idx, rt)] }

/-- A plain mutating kernel call: it is attempted (traced), fails iff the
oracle says so, and mutates the kernel state only on success. -/
def kcall (o : Oracle) (k : Kernel) (tr : List KernelCall) (c : KernelCall) : Res Unit :=
  if o c then ⟨Except.error (GoError.kernel c), k, tr ++ [c]⟩
  else ⟨Except.ok (), applyCall k c, tr ++ [c]⟩

/-- ns.GetNS: resolve a network namespace by path.  Fails when the path
does not denote an existing namespace (or on injected fault). -/
def GetNS (o : Oracle) (k : Kernel) (tr : List KernelCall) (path : String) : Res NsHandle :=
  if k.namespaces.contains path && !(o (KernelCall.getNS path)) then
    ⟨Except.ok ⟨path⟩, k, tr ++ [KernelCall.getNS path]⟩
  else
    ⟨Except.error (GoError.kernel (KernelCall.getNS path)), k, tr ++ [KernelCall.getNS path]⟩

/-- netlink.LinkByName, executed while the calling context is bound to
namespace `curNs`: finds the link by name in that namespace and returns a
handle to it.  Fails when no such link exists (or on injected fault). -/
def LinkByName (o : Oracle) (k : Kernel) (tr : List KernelCall) (curNs name : String) : Res LinkHandle :=
  match k.links.find? (fun l => l.name == name && l.netns == curNs) with
  | some l =>
    if o (KernelCall.linkByName curNs name) then
      ⟨Except.error (GoError.kernel (KernelCall.linkByName curNs name)), k, tr ++ [KernelCall.linkByName curNs name]⟩
    else
      ⟨Except.ok ⟨l.idx, curNs⟩, k, tr ++ [KernelCall.linkByName curNs name]⟩
  | none =>
    ⟨Except.error (GoError.kernel (KernelCall.linkByName curNs name)), k, tr ++ [KernelCall.linkByName curNs name]⟩

/-- netlink.LinkSetDown. -/
def LinkSetDown (o : Oracle) (k : Kernel) (tr : List KernelCall) (h : LinkHandle) : Res Unit :=
  kcall o k tr (KernelCall.linkSetDown h)

/-- netlink.LinkSetMTU. -/
def LinkSetMTU (o : Oracle) (k : Kernel) (tr : List KernelCall) (h : LinkHandle) (m : Int) : Res Unit :=
  kcall o k tr (KernelCall.linkSetMTU h m)

/-- netlink.LinkSetNsFd: move the link into the namespace behind the fd. -/
def LinkSetNsFd (o : Oracle) (k : Kernel) (tr : List KernelCall) (h : LinkHandle) (target : String) : Res Unit :=
  kcall o k tr (KernelCall.linkSetNsFd h target)

/-- netlink.LinkSetName. -/
def LinkSetName (o : Oracle) (k : Kernel) (tr : List KernelCall) (h : LinkHandle) (n : String) : Res Unit :=
  kcall o k tr (KernelCall.linkSetName h n)

/-- netlink.AddrAdd for the address at list index `i`. -/
def AddrAdd (o : Oracle) (k : Kernel) (tr : List KernelCall) (h : LinkHandle) (i : Nat) (a : String) : Res Unit :=
  kcall o k tr (KernelCall.addrAdd h i a)

/-- netlink.LinkSetUp. -/
def LinkSetUp (o : Oracle) (k : Kernel) (tr : List KernelCall) (h : LinkHandle) : Res Unit :=
  kcall o k tr (KernelCall.linkSetUp h)

/-- netlink.RouteAdd for the route at list index `i`. -/
def RouteAdd (o : Oracle) (k : Kernel) (tr : List KernelCall) (h : LinkHandle) (i : Nat) (rt : String) : Res Unit :=
  kcall o k tr (KernelCall.routeAdd h i rt)

/-- pb.AddRequest.Settings (proto message; only the Mtu field is used by
the migrator; proto3 encodes an absent Mtu as 0). -/
structure ContainerSettings where
  mtu : Int
  deriving DecidableEq, Repr

/-- pb.AddRequest, restricted to the fields `DoSriovNetwork` reads:
the target namespace path, the desired interface name, the address and
route lists and the settings. -/
structure AddRequest where
  netns : String
  interfaceName : String
  containerIps : List String
  containerRoutes : List String
  settings : ContainerSettings
  deriving DecidableEq, Repr

/-- types.InterfaceInfo, restricted to the fields `DoSriovNetwork` reads:
the PCI address (only logged) and the host-side interface name. -/
structure InterfaceInfo where
  pciAddr : String
  interfaceName : String
  deriving DecidableEq, Repr

/-- Modelled from the spec: `setLinkAddress` (a pkg/netconf helper whose
definition is not under src/) applies every entry of the address list in
order starting at index `i`; the first failure aborts the remaining
assignments and surfaces the failing entry (the error carries the failing
index). -/
def setLinkAddressFrom (o : Oracle) (h : LinkHandle) : Kernel → List KernelCall → Nat → List String → Res Unit
  | k, tr, _, [] => ⟨Except.ok (), k, tr⟩
  | k, tr, i, ip :: rest =>
    match AddrAdd o k tr h i ip with
    | ⟨Except.error e, k1, t1⟩ => ⟨Except.error e, k1, t1⟩
    | ⟨Except.ok _, k1, t1⟩ => setLinkAddressFrom o h k1 t1 (i + 1) rest

/-- Modelled from the spec: `setLinkAddress` applies every entry of
`ContainerIps`, in order from index 0. -/
def setLinkAddress (o : Oracle) (k : Kernel) (tr : List KernelCall) (h : LinkHandle) (ips : List String) : Res Unit :=
  setLinkAddressFrom o h k tr 0 ips

/-- Modelled from the spec: `setupPodRoute` (a pkg/netconf helper whose
definition is not under src/) installs every entry of the route list in
order starting at index `i`, on the given (now active) interface; the
first failure aborts the remaining installs and surfaces the failing
entry (the error carries the failing index). -/
def setupPodRouteFrom (o : Oracle) (h : LinkHandle) : Kernel → List KernelCall → Nat → List String → Res Unit
  | k, tr, _, [] => ⟨Except.ok (), k, tr⟩
  | k, tr, i, rt :: rest =>
    match RouteAdd o k tr h i rt with
    | ⟨Except.error e, k1, t1⟩ => ⟨Except.error e, k1, t1⟩
    | ⟨Except.ok _, k1, t1⟩ => setupPodRouteFrom o h k1 t1 (i + 1) rest

/-- Modelled from the spec: `setupPodRoute` installs every entry of
`ContainerRoutes`, in order from index 0. -/
def setupPodRoute (o : Oracle) (k : Kernel) (tr : List KernelCall) (h : LinkHandle) (rts : List String) : Res Unit :=
  setupPodRouteFrom o h k tr 0 rts

/-- newNsError (pkg/netconf, defined outside src/): wraps the error that
came out of the namespace-scoped phase. -/
def newNsError (e : GoError) : GoError := GoError.nsErr e

/-- configureSriovNamespace: runs inside `ns.WithNetNSPath(in.Netns, ...)`
(which re-resolves the namespace path and binds the calling context to
it): rename the link to the desired name using the handle passed in from
the host phase, re-fetch the link by its new name, apply addresses, set
the link up, and install routes, wrapping each failure with the context
string used by the source. -/
def configureSriovNamespace (o : Oracle) (k : Kernel) (tr : List KernelCall) (req : AddRequest) (linkObj : LinkHandle) : Res Unit :=
  if k.namespaces.contains req.netns then
    match LinkSetName o k tr linkObj req.interfaceName with
    | ⟨Except.error e, k1, t1⟩ => ⟨Except.error (GoError.wrap "cannot set link name" e), k1, t1⟩
    | ⟨Except.ok _, k1, t1⟩ =>
      match LinkByName o k1 t1 req.netns req.interfaceName with
      | ⟨Except.error e, k2, t2⟩ => ⟨Except.error e, k2, t2⟩
      | ⟨Except.ok linkObj2, k2, t2⟩ =>
        match setLinkAddress o k2 t2 linkObj2 req.containerIps with
        | ⟨Except.error e, k3, t3⟩ => ⟨Except.error (GoError.wrap "cannot set link address" e), k3, t3⟩
        | ⟨Except.ok _, k3, t3⟩ =>
          match LinkSetUp o k3 t3 linkObj2 with
          | ⟨Except.error e, k4, t4⟩ => ⟨Except.error (GoError.wrap "cannot set link up" e), k4, t4⟩
          | ⟨Except.ok _, k4, t4⟩ =>
            match setupPodRoute o k4 t4 linkObj2 req.containerRoutes with
            | ⟨Except.error e, k5, t5⟩ => ⟨Except.error (GoError.wrap "cannot setup routes" e), k5, t5⟩
            | ⟨Except.ok _, k5, t5⟩ => ⟨Except.ok (), k5, t5⟩
  else ⟨Except.error (GoError.kernel (KernelCall.getNS req.netns)), k, tr⟩

/-- DoSriovNetwork: the migrator entry point.  Resolve the target
namespace, resolve the interface by its host-side name, set it down,
conditionally set the MTU (only when Mtu is strictly positive), move the
link into the target namespace, and run the namespace-scoped phase,
wrapping its error with newNsError. -/
def DoSriovNetwork (o : Oracle) (k : Kernel) (req : AddRequest) (res : InterfaceInfo) : Res Unit :=
  match GetNS o k [] req.netns with
  | ⟨Except.error e, k1, t1⟩ => ⟨Except.error e, k1, t1⟩
  | ⟨Except.ok nn, k1, t1⟩ =>
    match LinkByName o k1 t1 hostNs res.interfaceName with
    | ⟨Except.error e, k2, t2⟩ => ⟨Except.error e, k2, t2⟩
    | ⟨Except.ok linkObj, k2, t2⟩ =>
      match LinkSetDown o k2 t2 linkObj with
      | ⟨Except.error e, k3, t3⟩ => ⟨Except.error e, k3, t3⟩
      | ⟨Except.ok _, k3, t3⟩ =>
        match (if 0 < req.settings.mtu then LinkSetMTU o k3 t3 linkObj req.settings.mtu else ⟨Except.ok (), k3, t3⟩ : Res Unit) with
        | ⟨Except.error e, k4, t4⟩ => ⟨Except.error e, k4, t4⟩
        | ⟨Except.ok _, k4, t4⟩ =>
          match LinkSetNsFd o k4 t4 linkObj nn.path with
          | ⟨Except.error e, k5, t5⟩ => ⟨Except.error e, k5, t5⟩
          | ⟨Except.ok _, k5, t5⟩ =>
            match configureSriovNamespace o k5 t5 req linkObj with
            | ⟨Except.error e, k6, t6⟩ => ⟨Except.error (newNsError e), k6, t6⟩
            | ⟨Except.ok _, k6, t6⟩ => ⟨Except.ok (), k6, t6⟩

/-- The kernel index of the link the host-phase `LinkByName` resolves
(0 when no such link exists; that default is never used in the theorems,
because in that case the run halts at the lookup). -/
def hostIdx (k : Kernel) (res : InterfaceInfo) : Nat :=
  match k.links.find? (fun l => l.name == res.interfaceName && l.netns == hostNs) with
  | some l => l.idx
  | none => 0

/-- The address-application calls for the given list, indexed from `i`. -/
def addrCalls (h : LinkHandle) : Nat → List String → List KernelCall
  | _, [] => []
  | i, a :: as => KernelCall.addrAdd h i a :: addrCalls h (i + 1) as

/-- The route-installation calls for the given list, indexed from `i`. -/
def routeCalls (h : LinkHandle) : Nat → List String → List KernelCall
  | _, [] => []
  | i, rt :: rts => KernelCall.routeAdd h i rt :: routeCalls h (i + 1) rts

/-- The full ordered sequence of kernel calls a migration issues when
nothing fails: resolve namespace, resolve interface in the host
namespace, set down, conditionally set MTU, move, rename, re-resolve in
the target namespace, apply addresses in order, set up, install routes in
order. -/
def expectedTrace (k : Kernel) (req : AddRequest) (res : InterfaceInfo) : List KernelCall :=
  [KernelCall.getNS req.netns,
   KernelCall.linkByName hostNs res.interfaceName,
   KernelCall.linkSetDown ⟨hostIdx k res, hostNs⟩]
  ++ (if 0 < req.settings.mtu then [KernelCall.linkSetMTU ⟨hostIdx k res, hostNs⟩ req.settings.mtu] else [])
  ++ [KernelCall.linkSetNsFd ⟨hostIdx k res, hostNs⟩ req.netns,
      KernelCall.linkSetName ⟨hostIdx k res, hostNs⟩ req.interfaceName,
      KernelCall.linkByName req.netns req.interfaceName]
  ++ addrCalls ⟨hostIdx k res, req.netns⟩ 0 req.containerIps
  ++ [KernelCall.linkSetUp ⟨hostIdx k res, req.netns⟩]
  ++ routeCalls ⟨hostIdx k res, req.netns⟩ 0 req.containerRoutes

/-- The error `DoSriovNetwork` surfaces when kernel call `c` is the one
that fails: host-phase failures surface the raw kernel error; failures
inside the namespace-scoped phase come back through newNsError, with the
context strings of `configureSriovNamespace` added for the rename, the
address, the set-up and the route steps, but not for the re-resolution. -/
def errorShape : KernelCall → GoError
  | KernelCall.linkSetName h n =>
    GoError.nsErr (GoError.wrap "cannot set link name" (GoError.kernel (KernelCall.linkSetName h n)))
  | KernelCall.linkByName inNs n =>
    if inNs == hostNs then GoError.kernel (KernelCall.linkByName inNs n)
    else GoError.nsErr (GoError.kernel (KernelCall.linkByName inNs n))
  | KernelCall.addrAdd h i a =>
    GoError.nsErr (GoError.wrap "cannot set link address" (GoError.kernel (KernelCall.addrAdd h i a)))
  | KernelCall.linkSetUp h =>
    GoError.nsErr (GoError.wrap "cannot set link up" (GoError.kernel (KernelCall.linkSetUp h)))
  | KernelCall.routeAdd h i rt =>
    GoError.nsErr (GoError.wrap "cannot setup routes" (GoError.kernel (KernelCall.routeAdd h i rt)))
  | c => GoError.kernel c

/-- Whether a kernel call fails when issued by the migrator started on
kernel `k` under oracle `o`: namespace resolution also fails when the
path is absent, the host-phase link lookup also fails when the link is
absent, and every other call fails exactly on an injected fault. -/
def failsB (o : Oracle) (k : Kernel) : KernelCall → Bool
  | KernelCall.getNS p => !(k.namespaces.contains p) || o (KernelCall.getNS p)
  | KernelCall.linkByName inNs n =>
    if inNs == hostNs then
      (k.links.find? (fun l => l.name == n && l.netns == hostNs)).isNone || o (KernelCall.linkByName inNs n)
    else o (KernelCall.linkByName inNs n)
  | c => o c

/-- Reference interpreter: attempt the calls of the list in order; the
first call on which `p` fires halts the run with that call's surfaced
error; every successful call applies its state effect. -/
def runCalls (p : KernelCall → Bool) : Kernel → List KernelCall → List KernelCall → Res Unit
  | k, tr, [] => ⟨Except.ok (), k, tr⟩
  | k, tr, c :: cs =>
    if p c then ⟨Except.error (errorShape c), k, tr ++ [c]⟩
    else runCalls p (applyCall k c) (tr ++ [c]) cs

/-- Index of the first element on which `p` fires. -/
def firstFailIdx (p : KernelCall → Bool) : List KernelCall → Option Nat
  | [] => none
  | c :: cs => if p c then some 0 else (firstFailIdx p cs).map (· + 1)

/-- The link handle a mutating kernel call goes through (none for the
read-only resolution calls). -/
def mutHandle : KernelCall → Option LinkHandle
  | KernelCall.getNS _ => none
  | KernelCall.linkByName _ _ => none
  | KernelCall.linkSetDown h => some h
  | KernelCall.linkSetMTU h _ => some h
  | KernelCall.linkSetNsFd h _ => some h
  | KernelCall.linkSetName h _ => some h
  | KernelCall.addrAdd h _ _ => some h
  | KernelCall.linkSetUp h => some h
  | KernelCall.routeAdd h _ _ => some h

/-- Whether the call is the namespace move. -/
def isMoveCall : KernelCall → Bool
  | KernelCall.linkSetNsFd _ _ => true
  | _ => false

/-- Whether the call is a link lookup executed inside namespace `nsName`. -/
def isResolveIn (nsName : String) : KernelCall → Bool
  | KernelCall.linkByName inNs _ => inNs == nsName
  | _ => false

/-- Whether the call is the MTU configuration or the namespace move. -/
def isMtuOrMove : KernelCall → Bool
  | KernelCall.linkSetMTU _ _ => true
  | KernelCall.linkSetNsFd _ _ => true
  | _ => false

/-- The calls strictly after the first call satisfying `p`. -/
def afterFirst (p : KernelCall → Bool) (tr : List KernelCall) : List KernelCall :=
  (tr.dropWhile (fun c => !(p c))).tail

/-- C2's invariant as the claim states it: every mutating call issued
after the namespace move goes through a handle resolved inside the
target namespace. -/
abbrev c2ClaimHolds (targetNs : String) (tr : List KernelCall) : Prop :=
  ∀ c ∈ afterFirst isMoveCall tr, ∀ h, mutHandle c = some h → h.resolvedIn = targetNs

/-- The list index carried by an address-application call. -/
def addrIdxOf : KernelCall → Option Nat
  | KernelCall.addrAdd _ i _ => some i
  | _ => none

/-- The list index carried by a route-installation call. -/
def routeIdxOf : KernelCall → Option Nat
  | KernelCall.routeAdd _ i _ => some i
  | _ => none

/-- Oracle failing no kernel call. -/
def allOk : Oracle := fun _ => false

/-- Oracle failing exactly the given kernel call. -/
def failAt (c0 : KernelCall) : Oracle := fun c => c == c0

/- ## Gateway (pkg/healthserver) -/

/-- An established gRPC client connection (identified by a number). -/
abbrev Conn := Nat

/-- The tri-state result of a grpc_health_v1 Check exchange (plus the
protocol's SERVICE_UNKNOWN, unused by the Check path). -/
inductive HealthStatus where
  | UNKNOWN
  | SERVING
  | NOT_SERVING
  | SERVICE_UNKNOWN
  deriving DecidableEq, Repr

/-- The observable effects of one downstream probe: the dial attempt,
the health-check call on a connection, and the connection close. -/
inductive GrpcEvent where
  | dialTo (target : String)
  | healthCheckOn (c : Conn)
  | closeOf (c : Conn)
  deriving DecidableEq, Repr

/-- The gRPC environment the gateway probes against: `dial` yields a
connection or fails (Go: non-nil conn iff err == nil), `check` yields the
health status of the service behind a connection or fails. -/
structure GrpcWorld where
  dial : String → Option Conn
  check : Conn → Option HealthStatus

/-- checkGrpcServerStatus: dial the target; the deferred close is guarded
by a nil check, so it only runs when a connection was established, after
the body returns; on dial failure return false; on check failure return
false; otherwise the probe is healthy exactly when the status is SERVING.
Returns the boolean together with the list of effects in order. -/
def checkGrpcServerStatus (w : GrpcWorld) (target : String) : Bool × List GrpcEvent :=
  match w.dial target with
  | none => (false, [GrpcEvent.dialTo target])
  | some conn =>
    match w.check conn with
    | none => (false, [GrpcEvent.dialTo target, GrpcEvent.healthCheckOn conn, GrpcEvent.closeOf conn])
    | some resp =>
      (resp == HealthStatus.SERVING,
       [GrpcEvent.dialTo target, GrpcEvent.healthCheckOn conn, GrpcEvent.closeOf conn])

/-- types.ServerStatusOK: the value of the process-wide status flag that
counts as healthy. -/
def ServerStatusOK : String := "OK"

/-- The healtServer state (the source's spelling): the gRPC world it
probes, the two downstream targets built from types configuration, and
the process-wide services status flag read by the third check. -/
structure HealtServer where
  world : GrpcWorld
  infraManagerAddr : String
  infraAgentAddr : String
  serviceServerStatus : String

/-- checkInfraManagerLiveness: probe the infra-manager target. -/
def checkInfraManagerLiveness (hs : HealtServer) : Bool :=
  (checkGrpcServerStatus hs.world hs.infraManagerAddr).1

/-- checkCniServerLiveness: probe the CNI (infra-agent) target. -/
def checkCniServerLiveness (hs : HealtServer) : Bool :=
  (checkGrpcServerStatus hs.world hs.infraAgentAddr).1

/-- checkServicesServerStatus: read the process-wide status flag; no
network call. -/
def checkServicesServerStatus (hs : HealtServer) : Bool :=
  hs.serviceServerStatus == ServerStatusOK

/-- Identifier of each of the three checks of the /check handler. -/
inductive CheckId where
  | infraManager
  | cniServer
  | servicesFlag
  deriving DecidableEq, Repr

/-- getCheck: the /check handler.  Runs the three checks in order —
infra manager, CNI server, services flag — writing 500 and returning at
the first failing check, 200 when all pass.  Returns the HTTP status
written together with the list of checks that were evaluated. -/
def getCheck (hs : HealtServer) : Nat × List CheckId :=
  if !(checkInfraManagerLiveness hs) then (500, [CheckId.infraManager])
  else if !(checkCniServerLiveness hs) then (500, [CheckId.infraManager, CheckId.cniServer])
  else if !(checkServicesServerStatus hs) then
    (500, [CheckId.infraManager, CheckId.cniServer, CheckId.servicesFlag])
  else (200, [CheckId.infraManager, CheckId.cniServer, CheckId.servicesFlag])

/- ## Concrete fixtures used by witnesses and counterexamples -/

/-- A host kernel with one namespace ns1 and one host link eth0. -/
def kEx : Kernel :=
  ⟨["ns1"], [⟨1, "eth0", hostNs, 1500, true⟩], [], []⟩

/-- A migration request: move eth0 into ns1 as net1 with MTU 1400, one
address and one route. -/
def reqEx : AddRequest :=
  ⟨"ns1", "net1", ["10.0.0.5/24"], ["0.0.0.0/0 via 10.0.0.1"], ⟨1400⟩⟩

/-- The interface info for the host link eth0. -/
def resEx : InterfaceInfo := ⟨"0000:01:00.1", "eth0"⟩

/-- A request identical to reqEx but keeping the name eth0 and MTU 0. -/
def reqExSameName : AddRequest :=
  ⟨"ns1", "eth0", ["10.0.0.5/24"], [], ⟨0⟩⟩

/-- A request whose target namespace does not exist in kEx. -/
def reqExBadNs : AddRequest :=
  ⟨"missing", "net1", [], [], ⟨0⟩⟩

/-- A gRPC world where every dial fails. -/
def worldDown : GrpcWorld := ⟨fun _ => none, fun _ => none⟩

/-- A gRPC world where dialing works and every service reports SERVING. -/
def worldServing : GrpcWorld := ⟨fun _ => some 0, fun _ => some HealthStatus.SERVING⟩

/-- A healtServer over a fully healthy environment. -/
def hsHealthy : HealtServer := ⟨worldServing, "manager:50051", "agent:50052", "OK"⟩

/-- A healtServer whose downstream dials fail. -/
def hsDown : HealtServer := ⟨worldDown, "manager:50051", "agent:50052", "OK"⟩

/- ## List helpers -/

theorem takePref (n : Nat) (l : List α) : l.take n <+: l :=
  ⟨l.drop n, List.take_append_drop n l⟩

theorem prefMem {l₁ l₂ : List α} (h : l₁ <+: l₂) {c : α} (hc : c ∈ l₁) : c ∈ l₂ := by
  obtain ⟨t, rfl⟩ := h
  exact List.mem_append_left t hc

theorem prefFilter {l₁ l₂ : List α} (p : α → Bool) (h : l₁ <+: l₂) :
    l₁.filter p <+: l₂.filter p := by
  obtain ⟨t, rfl⟩ := h
  exact ⟨t.filter p, by simp⟩

theorem prefAfterFirst {l₁ l₂ : List KernelCall} (p : KernelCall → Bool) (h : l₁ <+: l₂) :
    afterFirst p l₁ <+: afterFirst p l₂ := by
  obtain ⟨t, rfl⟩ := h
  unfold afterFirst
  induction l₁ with
  | nil => simp
  | cons c cs ih =>
    by_cases hc : p c
    · simp [List.dropWhile, hc]
    · simpa [List.dropWhile, hc] using ih

/- ## firstFailIdx and runCalls characterization -/

theorem firstFailIdx_lt (p : KernelCall → Bool) :
    ∀ (cs : List KernelCall) (n : Nat), firstFailIdx p cs = some n → n < cs.length := by
  intro cs
  induction cs with
  | nil => intro n h; simp [firstFailIdx] at h
  | cons c cs ih =>
    intro n h
    by_cases hc : p c
    · simp only [firstFailIdx, hc, if_pos, Option.some.injEq] at h
      simp only [List.length_cons]
      omega
    · simp only [firstFailIdx, hc, Bool.false_eq_true, if_false] at h
      cases hcs : firstFailIdx p cs with
      | none => rw [hcs] at h; simp at h
      | some m =>
        rw [hcs] at h
        simp only [Option.map, Option.some.injEq] at h
        have hm := ih m hcs
        simp only [List.length_cons]
        omega

theorem firstFailIdx_append (p : KernelCall → Bool) :
    ∀ (xs ys : List KernelCall),
      firstFailIdx p (xs ++ ys) =
        match firstFailIdx p xs with
        | some n => some n
        | none => (firstFailIdx p ys).map (· + xs.length) := by
  intro xs ys
  induction xs with
  | nil =>
    simp [firstFailIdx]
  | cons c cs ih =>
    by_cases hc : p c
    · simp [firstFailIdx, hc]
    · have step : firstFailIdx p ((c :: cs) ++ ys) = (firstFailIdx p (cs ++ ys)).map (· + 1) := by
        simp [firstFailIdx, hc]
      have step2 : firstFailIdx p (c :: cs) = (firstFailIdx p cs).map (· + 1) := by
        simp [firstFailIdx, hc]
      rw [step, ih, step2]
      cases h : firstFailIdx p cs with
      | some n => simp
      | none =>
        cases h2 : firstFailIdx p ys with
        | some m =>
          simp only [Option.map, List.length_cons, Option.some.injEq]
          omega
        | none => simp

theorem runCalls_eq (p : KernelCall → Bool) :
    ∀ (cs : List KernelCall) (k : Kernel) (tr : List KernelCall),
      runCalls p k tr cs =
        match firstFailIdx p cs with
        | none => ⟨Except.ok (), cs.foldl applyCall k, tr ++ cs⟩
        | some n =>
          ⟨Except.error (errorShape (cs.getD n (KernelCall.getNS ""))),
            (cs.take n).foldl applyCall k, tr ++ cs.take (n + 1)⟩ := by
  intro cs
  induction cs with
  | nil => intro k tr; simp [runCalls, firstFailIdx]
  | cons c cs ih =>
    intro k tr
    by_cases hc : p c
    · simp [runCalls, firstFailIdx, hc, List.getD]
    · simp only [runCalls, hc, if_neg, Bool.false_eq_true, not_false_eq_true, firstFailIdx]
      rw [ih]
      cases h : firstFailIdx p cs with
      | none => simp
      | some n => simp [List.getD_cons_succ]

theorem getLast_take (cs : List KernelCall) :
    ∀ (n : Nat), n < cs.length →
      (cs.take (n + 1)).getLast? = some (cs.getD n (KernelCall.getNS "")) := by
  induction cs with
  | nil => intro n h; simp at h
  | cons c cs ih =>
    intro n h
    cases n with
    | zero =>
      cases cs with
      | nil => simp [List.getD]
      | cons d ds => simp [List.getD]
    | succ m =>
      cases cs with
      | nil => simp at h
      | cons d ds =>
        have hm : m < (d :: ds).length := by
          simp only [List.length_cons] at h ⊢
          omega
        have hih := ih m hm
        simp only [List.take_succ_cons] at hih ⊢
        rw [List.getD_cons_succ, List.getLast?_cons_cons]
        exact hih

/- ## State invariants of applyCall -/

theorem applyCall_namespaces (k : Kernel) (c : KernelCall) :
    (applyCall k c).namespaces = k.namespaces := by
  cases c <;> simp [applyCall, Kernel.updLink]

theorem updLink_proj {β : Type} (g : Link → β) (k : Kernel) (i : Nat) (f : Link → Link)
    (hf : ∀ l, g (f l) = g l) : (k.updLink i f).links.map g = k.links.map g := by
  have hfun : (g ∘ fun l => if l.idx == i then f l else l) = g := by
    funext l
    simp only [Function.comp_apply]
    by_cases h : l.idx == i
    · rw [if_pos h, hf]
    · rw [if_neg h]
  simp only [Kernel.updLink, List.map_map, hfun]

theorem updLink_updLink (k : Kernel) (i : Nat) (f g : Link → Link)
    (hf : ∀ l, (f l).idx = l.idx) :
    (k.updLink i f).updLink i g = k.updLink i (fun l => g (f l)) := by
  have hfun : ((fun l => if l.idx == i then g l else l) ∘ fun l => if l.idx == i then f l else l)
      = fun l => if l.idx == i then g (f l) else l := by
    funext l
    simp only [Function.comp_apply]
    by_cases h : l.idx == i
    · have hfl : ((f l).idx == i) = true := by rw [hf]; exact h
      simp [h, hfl]
    · simp [h]
  simp only [Kernel.updLink, List.map_map, hfun]

theorem applyCall_mtuPairs (k : Kernel) (c : KernelCall)
    (hn : ∀ h v, c ≠ KernelCall.linkSetMTU h v) :
    (applyCall k c).links.map (fun l => (l.idx, l.mtu)) = k.links.map (fun l => (l.idx, l.mtu)) := by
  cases c with
  | linkSetMTU h v => exact absurd rfl (hn h v)
  | linkSetDown h => exact updLink_proj _ k h.idx _ (fun l => rfl)
  | linkSetNsFd h t => exact updLink_proj _ k h.idx _ (fun l => rfl)
  | linkSetName h n => exact updLink_proj _ k h.idx _ (fun l => rfl)
  | linkSetUp h => exact updLink_proj _ k h.idx _ (fun l => rfl)
  | _ => simp [applyCall]

theorem foldl_mtuPairs :
    ∀ (cs : List KernelCall) (k : Kernel),
      (∀ c ∈ cs, ∀ h v, c ≠ KernelCall.linkSetMTU h v) →
      ((cs.foldl applyCall k).links.map (fun l => (l.idx, l.mtu)) =
        k.links.map (fun l => (l.idx, l.mtu))) := by
  intro cs
  induction cs with
  | nil => intro k _; rfl
  | cons c cs ih =>
    intro k hc
    simp only [List.foldl_cons]
    rw [ih (applyCall k c) (fun d hd => hc d (List.mem_cons_of_mem c hd)),
      applyCall_mtuPairs k c (hc c (List.mem_cons_self c cs))]

theorem applyCall_addrs (k : Kernel) (c : KernelCall)
    (hn : ∀ h i a, c ≠ KernelCall.addrAdd h i a) :
    (applyCall k c).addrs = k.addrs := by
  cases c with
  | addrAdd h i a => exact absurd rfl (hn h i a)
  | _ => simp [applyCall, Kernel.updLink]

theorem applyCall_routes (k : Kernel) (c : KernelCall)
    (hn : ∀ h i rt, c ≠ KernelCall.routeAdd h i rt) :
    (applyCall k c).routes = k.routes := by
  cases c with
  | routeAdd h i rt => exact absurd rfl (hn h i rt)
  | _ => simp [applyCall, Kernel.updLink]

theorem foldl_addrs :
    ∀ (cs : List KernelCall) (k : Kernel),
      (∀ c ∈ cs, ∀ h i a, c ≠ KernelCall.addrAdd h i a) →
      (cs.foldl applyCall k).addrs = k.addrs := by
  intro cs
  induction cs with
  | nil => intro k _; rfl
  | cons c cs ih =>
    intro k hc
    simp only [List.foldl_cons]
    rw [ih (applyCall k c) (fun d hd => hc d (List.mem_cons_of_mem c hd)),
      applyCall_addrs k c (hc c (List.mem_cons_self c cs))]

theorem foldl_routes :
    ∀ (cs : List KernelCall) (k : Kernel),
      (∀ c ∈ cs, ∀ h i rt, c ≠ KernelCall.routeAdd h i rt) →
      (cs.foldl applyCall k).routes = k.routes := by
  intro cs
  induction cs with
  | nil => intro k _; rfl
  | cons c cs ih =>
    intro k hc
    simp only [List.foldl_cons]
    rw [ih (applyCall k c) (fun d hd => hc d (List.mem_cons_of_mem c hd)),
      applyCall_routes k c (hc c (List.mem_cons_self c cs))]

/- ## Structure of the address and route call segments -/

theorem addrCalls_mem (h : LinkHandle) :
    ∀ (i : Nat) (ips : List String) (c : KernelCall),
      c ∈ addrCalls h i ips → ∃ j a, c = KernelCall.addrAdd h j a := by
  intro i ips
  induction ips generalizing i with
  | nil => intro c hc; simp [addrCalls] at hc
  | cons ip ips ih =>
    intro c hc
    rcases List.mem_cons.mp hc with h1 | h2
    · exact ⟨i, ip, h1⟩
    · exact ih (i + 1) c h2

theorem routeCalls_mem (h : LinkHandle) :
    ∀ (i : Nat) (rts : List String) (c : KernelCall),
      c ∈ routeCalls h i rts → ∃ j rt, c = KernelCall.routeAdd h j rt := by
  intro i rts
  induction rts generalizing i with
  | nil => intro c hc; simp [routeCalls] at hc
  | cons rt rts ih =>
    intro c hc
    rcases List.mem_cons.mp hc with h1 | h2
    · exact ⟨i, rt, h1⟩
    · exact ih (i + 1) c h2

theorem addrCalls_filterMap_addr (h : LinkHandle) :
    ∀ (ips : List String) (i : Nat),
      (addrCalls h i ips).filterMap addrIdxOf = List.range' i ips.length := by
  intro ips
  induction ips with
  | nil => intro i; simp [addrCalls]
  | cons ip ips ih =>
    intro i
    simp [addrCalls, addrIdxOf, List.range'_succ, ih]

theorem routeCalls_filterMap_route (h : LinkHandle) :
    ∀ (rts : List String) (i : Nat),
      (routeCalls h i rts).filterMap routeIdxOf = List.range' i rts.length := by
  intro rts
  induction rts with
  | nil => intro i; simp [routeCalls]
  | cons rt rts ih =>
    intro i
    simp [routeCalls, routeIdxOf, List.range'_succ, ih]

theorem addrCalls_filterMap_route (h : LinkHandle) :
    ∀ (ips : List String) (i : Nat), (addrCalls h i ips).filterMap routeIdxOf = [] := by
  intro ips
  induction ips with
  | nil => intro i; simp [addrCalls]
  | cons ip ips ih => intro i; simp [addrCalls, routeIdxOf, ih]

theorem routeCalls_filterMap_addr (h : LinkHandle) :
    ∀ (rts : List String) (i : Nat), (routeCalls h i rts).filterMap addrIdxOf = [] := by
  intro rts
  induction rts with
  | nil => intro i; simp [routeCalls]
  | cons rt rts ih => intro i; simp [routeCalls, addrIdxOf, ih]

theorem addrCalls_length (h : LinkHandle) :
    ∀ (ips : List String) (i : Nat), (addrCalls h i ips).length = ips.length := by
  intro ips
  induction ips with
  | nil => intro i; rfl
  | cons ip ips ih => intro i; simp [addrCalls, ih]

theorem routeCalls_length (h : LinkHandle) :
    ∀ (rts : List String) (i : Nat), (routeCalls h i rts).length = rts.length := by
  intro rts
  induction rts with
  | nil => intro i; rfl
  | cons rt rts ih => intro i; simp [routeCalls, ih]

theorem addrCalls_take (h : LinkHandle) :
    ∀ (ips : List String) (i n : Nat),
      (addrCalls h i ips).take n = addrCalls h i (ips.take n) := by
  intro ips
  induction ips with
  | nil => intro i n; simp [addrCalls]
  | cons ip ips ih =>
    intro i n
    cases n with
    | zero => simp [addrCalls]
    | succ m => simp [addrCalls, ih]

theorem routeCalls_take (h : LinkHandle) :
    ∀ (rts : List String) (i n : Nat),
      (routeCalls h i rts).take n = routeCalls h i (rts.take n) := by
  intro rts
  induction rts with
  | nil => intro i n; simp [routeCalls]
  | cons rt rts ih =>
    intro i n
    cases n with
    | zero => simp [routeCalls]
    | succ m => simp [routeCalls, ih]

theorem addrCalls_getD (h : LinkHandle) :
    ∀ (ips : List String) (i m : Nat), m < ips.length →
      (addrCalls h i ips).getD m (KernelCall.getNS "") =
        KernelCall.addrAdd h (i + m) (ips.getD m "") := by
  intro ips
  induction ips with
  | nil => intro i m hm; simp at hm
  | cons ip ips ih =>
    intro i m hm
    cases m with
    | zero => simp [addrCalls, List.getD]
    | succ m2 =>
      simp only [addrCalls, List.getD_cons_succ]
      rw [ih (i + 1) m2 (by simpa using Nat.lt_of_succ_lt_succ hm)]
      congr 1
      omega

theorem routeCalls_getD (h : LinkHandle) :
    ∀ (rts : List String) (i m : Nat), m < rts.length →
      (routeCalls h i rts).getD m (KernelCall.getNS "") =
        KernelCall.routeAdd h (i + m) (rts.getD m "") := by
  intro rts
  induction rts with
  | nil => intro i m hm; simp at hm
  | cons rt rts ih =>
    intro i m hm
    cases m with
    | zero => simp [routeCalls, List.getD]
    | succ m2 =>
      simp only [routeCalls, List.getD_cons_succ]
      rw [ih (i + 1) m2 (by simpa using Nat.lt_of_succ_lt_succ hm)]
      congr 1
      omega

theorem foldl_addrCalls (h : LinkHandle) :
    ∀ (ips : List String) (i : Nat) (k : Kernel),
      (addrCalls h i ips).foldl applyCall k =
        { k with addrs := k.addrs ++ ips.map (fun a => (h.idx, a)) } := by
  intro ips
  induction ips with
  | nil => intro i k; simp [addrCalls]
  | cons ip ips ih =>
    intro i k
    simp only [addrCalls, List.foldl_cons, applyCall]
    rw [ih]
    simp

theorem foldl_routeCalls (h : LinkHandle) :
    ∀ (rts : List String) (i : Nat) (k : Kernel),
      (routeCalls h i rts).foldl applyCall k =
        { k with routes := k.routes ++ rts.map (fun rt => (h.idx, rt)) } := by
  intro rts
  induction rts with
  | nil => intro i k; simp [routeCalls]
  | cons rt rts ih =>
    intro i k
    simp only [routeCalls, List.foldl_cons, applyCall]
    rw [ih]
    simp

theorem firstFailIdx_addrCalls_none (p : KernelCall → Bool) (h : LinkHandle)
    (hp : ∀ m a, p (KernelCall.addrAdd h m a) = false) :
    ∀ (ips : List String) (i : Nat), firstFailIdx p (addrCalls h i ips) = none := by
  intro ips
  induction ips with
  | nil => intro i; rfl
  | cons ip ips ih => intro i; simp [addrCalls, firstFailIdx, hp, ih]

theorem firstFailIdx_routeCalls_none (p : KernelCall → Bool) (h : LinkHandle)
    (hp : ∀ m rt, p (KernelCall.routeAdd h m rt) = false) :
    ∀ (rts : List String) (i : Nat), firstFailIdx p (routeCalls h i rts) = none := by
  intro rts
  induction rts with
  | nil => intro i; rfl
  | cons rt rts ih => intro i; simp [routeCalls, firstFailIdx, hp, ih]

theorem firstFailIdx_addrCalls_at (p : KernelCall → Bool) (h : LinkHandle) (i : Nat)
    (hp : ∀ (m : Nat) (a : String), p (KernelCall.addrAdd h m a) = (m == i)) :
    ∀ (ips : List String) (j : Nat), j ≤ i → i - j < ips.length →
      firstFailIdx p (addrCalls h j ips) = some (i - j) := by
  intro ips
  induction ips with
  | nil => intro j _ hlen; simp at hlen
  | cons ip ips ih =>
    intro j hj hlen
    by_cases hji : j = i
    · simp [addrCalls, firstFailIdx, hp, hji]
    · have hij : (j == i) = false := by simp [hji]
      have hj2 : j + 1 ≤ i := by omega
      have hlen2 : i - (j + 1) < ips.length := by
        simp only [List.length_cons] at hlen
        omega
      simp only [addrCalls, firstFailIdx, hp, hij, Bool.false_eq_true, if_false]
      rw [ih (j + 1) hj2 hlen2]
      simp only [Option.map, Option.some.injEq]
      omega

theorem firstFailIdx_routeCalls_at (p : KernelCall → Bool) (h : LinkHandle) (i : Nat)
    (hp : ∀ (m : Nat) (rt : String), p (KernelCall.routeAdd h m rt) = (m == i)) :
    ∀ (rts : List String) (j : Nat), j ≤ i → i - j < rts.length →
      firstFailIdx p (routeCalls h j rts) = some (i - j) := by
  intro rts
  induction rts with
  | nil => intro j _ hlen; simp at hlen
  | cons rt rts ih =>
    intro j hj hlen
    by_cases hji : j = i
    · simp [routeCalls, firstFailIdx, hp, hji]
    · have hij : (j == i) = false := by simp [hji]
      have hj2 : j + 1 ≤ i := by omega
      have hlen2 : i - (j + 1) < rts.length := by
        simp only [List.length_cons] at hlen
        omega
      simp only [routeCalls, firstFailIdx, hp, hij, Bool.false_eq_true, if_false]
      rw [ih (j + 1) hj2 hlen2]
      simp only [Option.map, Option.some.injEq]
      omega

/- ## Simulation: the modelled helpers against the reference interpreter -/

theorem setLinkAddressFrom_runCalls (o : Oracle) (p : KernelCall → Bool) (h : LinkHandle)
    (hp : ∀ i a, p (KernelCall.addrAdd h i a) = o (KernelCall.addrAdd h i a)) :
    ∀ (ips : List String) (i : Nat) (k : Kernel) (tr rest : List KernelCall),
      runCalls p k tr (addrCalls h i ips ++ rest) =
        match setLinkAddressFrom o h k tr i ips with
        | ⟨Except.error e, k1, t1⟩ =>
            ⟨Except.error (GoError.nsErr (GoError.wrap "cannot set link address" e)), k1, t1⟩
        | ⟨Except.ok _, k1, t1⟩ => runCalls p k1 t1 rest := by
  intro ips
  induction ips with
  | nil => intro i k tr rest; simp [addrCalls, setLinkAddressFrom]
  | cons ip ips ih =>
    intro i k tr rest
    by_cases hc : o (KernelCall.addrAdd h i ip)
    · simp [addrCalls, runCalls, hp, hc, setLinkAddressFrom, AddrAdd, kcall, errorShape]
    · simp only [addrCalls, List.cons_append, runCalls, hp, hc, Bool.false_eq_true, if_false,
        setLinkAddressFrom, AddrAdd, kcall]
      exact ih (i + 1) (applyCall k (KernelCall.addrAdd h i ip))
        (tr ++ [KernelCall.addrAdd h i ip]) rest

theorem setupPodRouteFrom_runCalls (o : Oracle) (p : KernelCall → Bool) (h : LinkHandle)
    (hp : ∀ i rt, p (KernelCall.routeAdd h i rt) = o (KernelCall.routeAdd h i rt)) :
    ∀ (rts : List String) (i : Nat) (k : Kernel) (tr rest : List KernelCall),
      runCalls p k tr (routeCalls h i rts ++ rest) =
        match setupPodRouteFrom o h k tr i rts with
        | ⟨Except.error e, k1, t1⟩ =>
            ⟨Except.error (GoError.nsErr (GoError.wrap "cannot setup routes" e)), k1, t1⟩
        | ⟨Except.ok _, k1, t1⟩ => runCalls p k1 t1 rest := by
  intro rts
  induction rts with
  | nil => intro i k tr rest; simp [routeCalls, setupPodRouteFrom]
  | cons rt rts ih =>
    intro i k tr rest
    by_cases hc : o (KernelCall.routeAdd h i rt)
    · simp [routeCalls, runCalls, hp, hc, setupPodRouteFrom, RouteAdd, kcall, errorShape]
    · simp only [routeCalls, List.cons_append, runCalls, hp, hc, Bool.false_eq_true, if_false,
        setupPodRouteFrom, RouteAdd, kcall]
      exact ih (i + 1) (applyCall k (KernelCall.routeAdd h i rt))
        (tr ++ [KernelCall.routeAdd h i rt]) rest

/- ## The post-rename lookup inside the target namespace -/

theorem find?_map_update (i0 : Nat) (F : Link → Link) (nsName newName : String)
    (hFns : ∀ l, (F l).netns = nsName) (hFnm : ∀ l, (F l).name = newName)
    (hFidx : ∀ l, (F l).idx = l.idx) :
    ∀ (ls : List Link), (∀ x ∈ ls, x.netns ≠ nsName) → (∃ x ∈ ls, x.idx = i0) →
      ∃ l1, (ls.map (fun l => if l.idx == i0 then F l else l)).find?
          (fun l => l.name == newName && l.netns == nsName) = some l1 ∧ l1.idx = i0 := by
  intro ls
  induction ls with
  | nil =>
    intro _ hex
    simp at hex
  | cons x xs ih =>
    intro hns hex
    by_cases hx : (x.idx == i0) = true
    · refine ⟨F x, ?_, by rw [hFidx]; exact beq_iff_eq.mp hx⟩
      have hcond : ((F x).name == newName && (F x).netns == nsName) = true := by
        simp [hFns, hFnm]
      simp only [List.map_cons, hx, if_true, List.find?_cons, hcond]
    · have hx2 : (x.idx == i0) = false := by simpa using hx
      have hxne : x.netns ≠ nsName := hns x (List.mem_cons_self x xs)
      have hpred : (x.name == newName && x.netns == nsName) = false := by
        simp [hxne]
      obtain ⟨y, hy, hyidx⟩ := hex
      rcases List.mem_cons.mp hy with rfl | hy2
      · exact absurd (by simp [hyidx] : (y.idx == i0) = true) hx
      · obtain ⟨l1, hfind, hidx⟩ :=
          ih (fun z hz => hns z (List.mem_cons_of_mem x hz)) ⟨y, hy2, hyidx⟩
        refine ⟨l1, ?_, hidx⟩
        simp only [List.map_cons, hx2, Bool.false_eq_true, if_false, List.find?_cons, hpred]
        exact hfind

/- ## configureSriovNamespace against the reference interpreter -/

theorem configureSriovNamespace_runCalls
    (o : Oracle) (p : KernelCall → Bool) (req : AddRequest) (hH : LinkHandle) (i0 : Nat)
    (hpName : ∀ h n, p (KernelCall.linkSetName h n) = o (KernelCall.linkSetName h n))
    (hpLook : p (KernelCall.linkByName req.netns req.interfaceName)
      = o (KernelCall.linkByName req.netns req.interfaceName))
    (hpAddr : ∀ h i a, p (KernelCall.addrAdd h i a) = o (KernelCall.addrAdd h i a))
    (hpUp : ∀ h, p (KernelCall.linkSetUp h) = o (KernelCall.linkSetUp h))
    (hpRoute : ∀ h i rt, p (KernelCall.routeAdd h i rt) = o (KernelCall.routeAdd h i rt))
    (hne2 : (req.netns == hostNs) = false)
    (k : Kernel) (tr : List KernelCall)
    (hcont : k.namespaces.contains req.netns = true)
    (hfind2 : ∃ l1, (applyCall k (KernelCall.linkSetName hH req.interfaceName)).links.find?
        (fun l => l.name == req.interfaceName && l.netns == req.netns) = some l1 ∧ l1.idx = i0) :
    runCalls p k tr
        (KernelCall.linkSetName hH req.interfaceName ::
          KernelCall.linkByName req.netns req.interfaceName ::
          (addrCalls ⟨i0, req.netns⟩ 0 req.containerIps
            ++ KernelCall.linkSetUp ⟨i0, req.netns⟩ ::
              routeCalls ⟨i0, req.netns⟩ 0 req.containerRoutes)) =
      match configureSriovNamespace o k tr req hH with
      | ⟨Except.error e, k1, t1⟩ => ⟨Except.error (GoError.nsErr e), k1, t1⟩
      | ⟨Except.ok _, k1, t1⟩ => ⟨Except.ok (), k1, t1⟩ := by
  obtain ⟨l1, hfind, hl1⟩ := hfind2
  have hmem : req.netns ∈ k.namespaces := by simpa using hcont
  by_cases h6 : o (KernelCall.linkSetName hH req.interfaceName) = true
  · simp [runCalls, hpName, h6, errorShape, configureSriovNamespace, hmem, LinkSetName, kcall]
  · simp only [runCalls, hpName, h6, Bool.false_eq_true, if_false]
    by_cases h7 : o (KernelCall.linkByName req.netns req.interfaceName) = true
    · simp [runCalls, hpLook, h7, errorShape, hne2, configureSriovNamespace, hmem,
        LinkSetName, kcall, h6, LinkByName, hfind]
    · simp only [runCalls, hpLook, h7, Bool.false_eq_true, if_false]
      have happ7 : applyCall (applyCall k (KernelCall.linkSetName hH req.interfaceName))
          (KernelCall.linkByName req.netns req.interfaceName)
          = applyCall k (KernelCall.linkSetName hH req.interfaceName) := rfl
      rw [happ7]
      rw [setLinkAddressFrom_runCalls o p ⟨i0, req.netns⟩ (fun i a => hpAddr _ i a)]
      simp only [configureSriovNamespace, hmem, if_true, LinkSetName, kcall, h6,
        Bool.false_eq_true, if_false, LinkByName, hfind, h7, setLinkAddress, hl1]
      cases h8 : setLinkAddressFrom o ⟨i0, req.netns⟩
          (applyCall k (KernelCall.linkSetName hH req.interfaceName))
          (tr ++ [KernelCall.linkSetName hH req.interfaceName]
            ++ [KernelCall.linkByName req.netns req.interfaceName]) 0 req.containerIps with
      | mk out8 k8 t8 =>
        cases out8 with
        | error e => simp [hmem]
        | ok u =>
          by_cases h9 : o (KernelCall.linkSetUp ⟨i0, req.netns⟩) = true
          · simp [runCalls, hpUp, h9, errorShape, LinkSetUp, kcall, hmem]
          · simp only [runCalls, hpUp, h9, Bool.false_eq_true, if_false, LinkSetUp, kcall]
            rw [show routeCalls (⟨i0, req.netns⟩ : LinkHandle) 0 req.containerRoutes
              = routeCalls ⟨i0, req.netns⟩ 0 req.containerRoutes ++ [] by simp]
            rw [setupPodRouteFrom_runCalls o p ⟨i0, req.netns⟩ (fun i rt => hpRoute _ i rt)]
            simp only [setupPodRoute]
            cases h10 : setupPodRouteFrom o ⟨i0, req.netns⟩
                (applyCall k8 (KernelCall.linkSetUp ⟨i0, req.netns⟩))
                (t8 ++ [KernelCall.linkSetUp ⟨i0, req.netns⟩]) 0 req.containerRoutes with
            | mk out10 k10 t10 =>
              cases out10 with
              | error e => simp [hmem]
              | ok u2 => simp [runCalls, hmem]

/- ## The master characterization of DoSriovNetwork -/

theorem hfind2_of_links (i0 : Nat) (req : AddRequest) (kk : Kernel) (ls : List Link)
    (F : Link → Link)
    (hFns : ∀ l, (F l).netns = req.netns) (hFnm : ∀ l, (F l).name = req.interfaceName)
    (hFidx : ∀ l, (F l).idx = l.idx)
    (hkk : kk.links = ls.map (fun l => if l.idx == i0 then F l else l))
    (hns : ∀ x ∈ ls, x.netns ≠ req.netns) (hex : ∃ x ∈ ls, x.idx = i0) :
    ∃ l1, kk.links.find? (fun l => l.name == req.interfaceName && l.netns == req.netns)
        = some l1 ∧ l1.idx = i0 := by
  rw [hkk]
  exact find?_map_update i0 F req.netns req.interfaceName hFns hFnm hFidx ls hns hex

theorem runCalls_cons_false (p : KernelCall → Bool) (k : Kernel) (tr : List KernelCall)
    (c : KernelCall) (cs : List KernelCall) (h : p c = false) :
    runCalls p k tr (c :: cs) = runCalls p (applyCall k c) (tr ++ [c]) cs := by
  simp [runCalls, h]

theorem mapCongrAll {α β : Type} (f g : α → β) :
    ∀ (ls : List α), (∀ x, f x = g x) → ls.map f = ls.map g := by
  intro ls h
  induction ls with
  | nil => rfl
  | cons a as ih => simp only [List.map_cons, h, ih]

theorem DoSriovNetwork_runCalls (o : Oracle) (k : Kernel) (req : AddRequest) (res : InterfaceInfo)
    (hne : req.netns ≠ hostNs) (hns : ∀ x ∈ k.links, x.netns ≠ req.netns) :
    DoSriovNetwork o k req res = runCalls (failsB o k) k [] (expectedTrace k req res) := by
  have hne2 : (req.netns == hostNs) = false := by simp [hne]
  by_cases h1 : (k.namespaces.contains req.netns && !(o (KernelCall.getNS req.netns))) = true
  case neg =>
    have hprop : ¬(req.netns ∈ k.namespaces ∧ o (KernelCall.getNS req.netns) = false) := by
      intro hcon
      apply h1
      have hcontains : k.namespaces.contains req.netns = true := by simpa using hcon.1
      rw [hcontains, hcon.2]
      rfl
    have hp1 : failsB o k (KernelCall.getNS req.netns) = true := by
      simp only [failsB]
      cases hc : k.namespaces.contains req.netns <;>
        cases ho : o (KernelCall.getNS req.netns) <;> simp_all
    simp [DoSriovNetwork, GetNS, hprop, expectedTrace, runCalls, hp1, errorShape]
  case pos =>
    have hcont : k.namespaces.contains req.netns = true := by
      cases hc : k.namespaces.contains req.netns
      · rw [hc] at h1; simp at h1
      · rfl
    have ho1 : o (KernelCall.getNS req.netns) = false := by
      cases ho : o (KernelCall.getNS req.netns)
      · rfl
      · rw [ho] at h1; simp at h1
    have hmem : req.netns ∈ k.namespaces := List.mem_of_elem_eq_true hcont
    have hp1 : failsB o k (KernelCall.getNS req.netns) = false := by
      simp only [failsB]
      rw [hcont, ho1]
      rfl
    have happ1 : applyCall k (KernelCall.getNS req.netns) = k := rfl
    have happ2 : applyCall k (KernelCall.linkByName hostNs res.interfaceName) = k := rfl
    have eq1 : GetNS o k [] req.netns
        = ⟨Except.ok ⟨req.netns⟩, k, [KernelCall.getNS req.netns]⟩ := by
      simp only [GetNS]
      rw [if_pos h1]
      rfl
    cases hfind : k.links.find? (fun l => l.name == res.interfaceName && l.netns == hostNs) with
    | none =>
      have hp2 : failsB o k (KernelCall.linkByName hostNs res.interfaceName) = true := by
        simp [failsB, hfind]
      simp [DoSriovNetwork, eq1, LinkByName, hfind, expectedTrace, runCalls, hp1, hp2,
        errorShape, applyCall]
    | some l =>
      have hIdx : hostIdx k res = l.idx := by simp [hostIdx, hfind]
      have hlmem : l ∈ k.links := List.mem_of_find?_eq_some hfind
      by_cases h2 : o (KernelCall.linkByName hostNs res.interfaceName) = true
      · have hp2 : failsB o k (KernelCall.linkByName hostNs res.interfaceName) = true := by
          simp [failsB, hfind, h2]
        simp [DoSriovNetwork, eq1, LinkByName, hfind, h2, expectedTrace, runCalls, hp1, hp2,
          errorShape, applyCall]
      · have ho2 : o (KernelCall.linkByName hostNs res.interfaceName) = false := by
          simpa using h2
        have hp2 : failsB o k (KernelCall.linkByName hostNs res.interfaceName) = false := by
          simp [failsB, hfind, ho2]
        have eq2 : LinkByName o k [KernelCall.getNS req.netns] hostNs res.interfaceName
            = ⟨Except.ok ⟨l.idx, hostNs⟩, k,
                [KernelCall.getNS req.netns,
                  KernelCall.linkByName hostNs res.interfaceName]⟩ := by
          simp [LinkByName, hfind, ho2]
        by_cases h3 : o (KernelCall.linkSetDown ⟨l.idx, hostNs⟩) = true
        · have hp3 : failsB o k (KernelCall.linkSetDown ⟨l.idx, hostNs⟩) = true := by
            simp [failsB, h3]
          simp [DoSriovNetwork, eq1, eq2, LinkSetDown, kcall, h3, expectedTrace, hIdx,
            runCalls, hp1, hp2, hp3, errorShape, applyCall]
        · have ho3 : o (KernelCall.linkSetDown ⟨l.idx, hostNs⟩) = false := by simpa using h3
          have hp3 : failsB o k (KernelCall.linkSetDown ⟨l.idx, hostNs⟩) = false := by
            simp [failsB, ho3]
          have eq3 : LinkSetDown o k
              [KernelCall.getNS req.netns, KernelCall.linkByName hostNs res.interfaceName]
              ⟨l.idx, hostNs⟩
              = ⟨Except.ok (), applyCall k (KernelCall.linkSetDown ⟨l.idx, hostNs⟩),
                  [KernelCall.getNS req.netns, KernelCall.linkByName hostNs res.interfaceName,
                    KernelCall.linkSetDown ⟨l.idx, hostNs⟩]⟩ := by
            simp [LinkSetDown, kcall, ho3]
          by_cases hm : 0 < req.settings.mtu
          case pos =>
            by_cases h4 : o (KernelCall.linkSetMTU ⟨l.idx, hostNs⟩ req.settings.mtu) = true
            · have hp4 : failsB o k (KernelCall.linkSetMTU ⟨l.idx, hostNs⟩ req.settings.mtu)
                  = true := by
                simp [failsB, h4]
              simp [DoSriovNetwork, eq1, eq2, LinkSetDown, LinkSetMTU, kcall, ho3, h4, hm,
                expectedTrace, hIdx, runCalls, hp1, hp2, hp3, hp4, errorShape, applyCall]
            · have ho4 : o (KernelCall.linkSetMTU ⟨l.idx, hostNs⟩ req.settings.mtu) = false := by
                simpa using h4
              have hp4 : failsB o k (KernelCall.linkSetMTU ⟨l.idx, hostNs⟩ req.settings.mtu)
                  = false := by
                simp [failsB, ho4]
              have eq4 : LinkSetMTU o (applyCall k (KernelCall.linkSetDown ⟨l.idx, hostNs⟩))
                  [KernelCall.getNS req.netns, KernelCall.linkByName hostNs res.interfaceName,
                    KernelCall.linkSetDown ⟨l.idx, hostNs⟩]
                  ⟨l.idx, hostNs⟩ req.settings.mtu
                  = ⟨Except.ok (),
                      applyCall (applyCall k (KernelCall.linkSetDown ⟨l.idx, hostNs⟩))
                        (KernelCall.linkSetMTU ⟨l.idx, hostNs⟩ req.settings.mtu),
                      [KernelCall.getNS req.netns, KernelCall.linkByName hostNs res.interfaceName,
                        KernelCall.linkSetDown ⟨l.idx, hostNs⟩,
                        KernelCall.linkSetMTU ⟨l.idx, hostNs⟩ req.settings.mtu]⟩ := by
                simp [LinkSetMTU, kcall, ho4]
              by_cases h5 : o (KernelCall.linkSetNsFd ⟨l.idx, hostNs⟩ req.netns) = true
              · have hp5 : failsB o k (KernelCall.linkSetNsFd ⟨l.idx, hostNs⟩ req.netns)
                    = true := by
                  simp [failsB, h5]
                simp [DoSriovNetwork, eq1, eq2, LinkSetDown, LinkSetMTU, kcall, ho3, ho4,
                  LinkSetNsFd, h5, hm, expectedTrace, hIdx, runCalls, hp1, hp2, hp3, hp4, hp5,
                  errorShape, applyCall]
              · have ho5 : o (KernelCall.linkSetNsFd ⟨l.idx, hostNs⟩ req.netns) = false := by
                  simpa using h5
                have hp5 : failsB o k (KernelCall.linkSetNsFd ⟨l.idx, hostNs⟩ req.netns)
                    = false := by
                  simp [failsB, ho5]
                have eq5 : LinkSetNsFd o
                    (applyCall (applyCall k (KernelCall.linkSetDown ⟨l.idx, hostNs⟩))
                      (KernelCall.linkSetMTU ⟨l.idx, hostNs⟩ req.settings.mtu))
                    [KernelCall.getNS req.netns, KernelCall.linkByName hostNs res.interfaceName,
                      KernelCall.linkSetDown ⟨l.idx, hostNs⟩,
                      KernelCall.linkSetMTU ⟨l.idx, hostNs⟩ req.settings.mtu]
                    ⟨l.idx, hostNs⟩ req.netns
                    = ⟨Except.ok (),
                        applyCall (applyCall (applyCall k
                          (KernelCall.linkSetDown ⟨l.idx, hostNs⟩))
                          (KernelCall.linkSetMTU ⟨l.idx, hostNs⟩ req.settings.mtu))
                          (KernelCall.linkSetNsFd ⟨l.idx, hostNs⟩ req.netns),
                        [KernelCall.getNS req.netns,
                          KernelCall.linkByName hostNs res.interfaceName,
                          KernelCall.linkSetDown ⟨l.idx, hostNs⟩,
                          KernelCall.linkSetMTU ⟨l.idx, hostNs⟩ req.settings.mtu,
                          KernelCall.linkSetNsFd ⟨l.idx, hostNs⟩ req.netns]⟩ := by
                  simp [LinkSetNsFd, kcall, ho5]
                have hcont5 : (applyCall (applyCall (applyCall k
                    (KernelCall.linkSetDown ⟨l.idx, hostNs⟩))
                    (KernelCall.linkSetMTU ⟨l.idx, hostNs⟩ req.settings.mtu))
                    (KernelCall.linkSetNsFd ⟨l.idx, hostNs⟩ req.netns)).namespaces.contains
                    req.netns = true := hcont
                have hfind5 : ∃ l1, (applyCall (applyCall (applyCall (applyCall k
                    (KernelCall.linkSetDown ⟨l.idx, hostNs⟩))
                    (KernelCall.linkSetMTU ⟨l.idx, hostNs⟩ req.settings.mtu))
                    (KernelCall.linkSetNsFd ⟨l.idx, hostNs⟩ req.netns))
                    (KernelCall.linkSetName ⟨l.idx, hostNs⟩ req.interfaceName)).links.find?
                    (fun x => x.name == req.interfaceName && x.netns == req.netns)
                    = some l1 ∧ l1.idx = l.idx := by
                  refine hfind2_of_links l.idx req _ k.links
                    (fun x =>
                      { x with isUp := false, mtu := req.settings.mtu,
                               netns := req.netns, name := req.interfaceName })
                    (fun _ => rfl) (fun _ => rfl) (fun _ => rfl) ?_ hns ⟨l, hlmem, rfl⟩
                  simp only [applyCall, Kernel.updLink, List.map_map]
                  apply mapCongrAll
                  intro x
                  by_cases hx : x.idx = l.idx <;> simp [hx]
                have hE : expectedTrace k req res
                    = KernelCall.getNS req.netns ::
                      KernelCall.linkByName hostNs res.interfaceName ::
                      KernelCall.linkSetDown ⟨l.idx, hostNs⟩ ::
                      KernelCall.linkSetMTU ⟨l.idx, hostNs⟩ req.settings.mtu ::
                      KernelCall.linkSetNsFd ⟨l.idx, hostNs⟩ req.netns ::
                      KernelCall.linkSetName ⟨l.idx, hostNs⟩ req.interfaceName ::
                      KernelCall.linkByName req.netns req.interfaceName ::
                      (addrCalls ⟨l.idx, req.netns⟩ 0 req.containerIps ++
                        KernelCall.linkSetUp ⟨l.idx, req.netns⟩ ::
                        routeCalls ⟨l.idx, req.netns⟩ 0 req.containerRoutes) := by
                  simp [expectedTrace, hIdx, hm]
                rw [hE, runCalls_cons_false _ _ _ _ _ hp1, runCalls_cons_false _ _ _ _ _ hp2,
                  runCalls_cons_false _ _ _ _ _ hp3, runCalls_cons_false _ _ _ _ _ hp4,
                  runCalls_cons_false _ _ _ _ _ hp5, happ1]
                simp only [happ2, List.nil_append, List.singleton_append, List.cons_append]
                simp only [DoSriovNetwork, eq1, eq2, eq3, if_pos hm, eq4, eq5]
                rw [configureSriovNamespace_runCalls o (failsB o k) req ⟨l.idx, hostNs⟩ l.idx
                  (fun h n => rfl) (by simp [failsB, hne2]) (fun h i a => rfl) (fun h => rfl)
                  (fun h i rt => rfl) hne2 _ _ hcont5 hfind5]
                split <;> simp [newNsError]
          case neg =>
            by_cases h5 : o (KernelCall.linkSetNsFd ⟨l.idx, hostNs⟩ req.netns) = true
            · have hp5 : failsB o k (KernelCall.linkSetNsFd ⟨l.idx, hostNs⟩ req.netns)
                  = true := by
                simp [failsB, h5]
              simp [DoSriovNetwork, eq1, eq2, LinkSetDown, kcall, ho3, LinkSetNsFd, h5, hm,
                expectedTrace, hIdx, runCalls, hp1, hp2, hp3, hp5, errorShape, applyCall]
            · have ho5 : o (KernelCall.linkSetNsFd ⟨l.idx, hostNs⟩ req.netns) = false := by
                simpa using h5
              have hp5 : failsB o k (KernelCall.linkSetNsFd ⟨l.idx, hostNs⟩ req.netns)
                  = false := by
                simp [failsB, ho5]
              have eq5 : LinkSetNsFd o (applyCall k (KernelCall.linkSetDown ⟨l.idx, hostNs⟩))
                  [KernelCall.getNS req.netns, KernelCall.linkByName hostNs res.interfaceName,
                    KernelCall.linkSetDown ⟨l.idx, hostNs⟩]
                  ⟨l.idx, hostNs⟩ req.netns
                  = ⟨Except.ok (),
                      applyCall (applyCall k (KernelCall.linkSetDown ⟨l.idx, hostNs⟩))
                        (KernelCall.linkSetNsFd ⟨l.idx, hostNs⟩ req.netns),
                      [KernelCall.getNS req.netns, KernelCall.linkByName hostNs res.interfaceName,
                        KernelCall.linkSetDown ⟨l.idx, hostNs⟩,
                        KernelCall.linkSetNsFd ⟨l.idx, hostNs⟩ req.netns]⟩ := by
                simp [LinkSetNsFd, kcall, ho5]
              have hcont5 : (applyCall (applyCall k (KernelCall.linkSetDown ⟨l.idx, hostNs⟩))
                  (KernelCall.linkSetNsFd ⟨l.idx, hostNs⟩ req.netns)).namespaces.contains
                  req.netns = true := hcont
              have hfind5 : ∃ l1, (applyCall (applyCall (applyCall k
                  (KernelCall.linkSetDown ⟨l.idx, hostNs⟩))
                  (KernelCall.linkSetNsFd ⟨l.idx, hostNs⟩ req.netns))
                  (KernelCall.linkSetName ⟨l.idx, hostNs⟩ req.interfaceName)).links.find?
                  (fun x => x.name == req.interfaceName && x.netns == req.netns)
                  = some l1 ∧ l1.idx = l.idx := by
                refine hfind2_of_links l.idx req _ k.links
                  (fun x =>
                    { x with isUp := false,
                             netns := req.netns, name := req.interfaceName })
                  (fun _ => rfl) (fun _ => rfl) (fun _ => rfl) ?_ hns ⟨l, hlmem, rfl⟩
                simp only [applyCall, Kernel.updLink, List.map_map]
                apply mapCongrAll
                intro x
                by_cases hx : x.idx = l.idx <;> simp [hx]
              have hE : expectedTrace k req res
                  = KernelCall.getNS req.netns ::
                    KernelCall.linkByName hostNs res.interfaceName ::
                    KernelCall.linkSetDown ⟨l.idx, hostNs⟩ ::
                    KernelCall.linkSetNsFd ⟨l.idx, hostNs⟩ req.netns ::
                    KernelCall.linkSetName ⟨l.idx, hostNs⟩ req.interfaceName ::
                    KernelCall.linkByName req.netns req.interfaceName ::
                    (addrCalls ⟨l.idx, req.netns⟩ 0 req.containerIps ++
                      KernelCall.linkSetUp ⟨l.idx, req.netns⟩ ::
                      routeCalls ⟨l.idx, req.netns⟩ 0 req.containerRoutes) := by
                simp [expectedTrace, hIdx, hm]
              rw [hE, runCalls_cons_false _ _ _ _ _ hp1, runCalls_cons_false _ _ _ _ _ hp2,
                runCalls_cons_false _ _ _ _ _ hp3, runCalls_cons_false _ _ _ _ _ hp5, happ1]
              simp only [happ2, List.nil_append, List.singleton_append, List.cons_append]
              simp only [DoSriovNetwork, eq1, eq2, eq3, if_neg hm, eq5]
              rw [configureSriovNamespace_runCalls o (failsB o k) req ⟨l.idx, hostNs⟩ l.idx
                (fun h n => rfl) (by simp [failsB, hne2]) (fun h i a => rfl) (fun h => rfl)
                (fun h i rt => rfl) hne2 _ _ hcont5 hfind5]
              split <;> simp [newNsError]

theorem cause_errorShape (c : KernelCall) : (errorShape c).cause = c := by
  cases c
  case linkByName a b =>
    simp only [errorShape]
    split <;> simp [GoError.cause]
  all_goals simp [errorShape, GoError.cause]

theorem DoSriovNetwork_spec (o : Oracle) (k : Kernel) (req : AddRequest) (res : InterfaceInfo)
    (hne : req.netns ≠ hostNs) (hns : ∀ x ∈ k.links, x.netns ≠ req.netns) :
    DoSriovNetwork o k req res =
      match firstFailIdx (failsB o k) (expectedTrace k req res) with
      | none =>
        ⟨Except.ok (), (expectedTrace k req res).foldl applyCall k, expectedTrace k req res⟩
      | some n =>
        ⟨Except.error (errorShape ((expectedTrace k req res).getD n (KernelCall.getNS ""))),
          ((expectedTrace k req res).take n).foldl applyCall k,
          (expectedTrace k req res).take (n + 1)⟩ := by
  rw [DoSriovNetwork_runCalls o k req res hne hns, runCalls_eq]
  cases firstFailIdx (failsB o k) (expectedTrace k req res) <;> simp

/-- C1: DoSriovNetwork attempts its kernel calls exactly in the fixed
order of expectedTrace (resolve namespace, resolve interface in the host
namespace, set down, conditionally set MTU, move, rename, re-resolve,
apply addresses in order, set up, install routes in order): the attempted
trace is always a prefix of that fixed sequence, a successful run
attempts exactly the whole sequence, and a failing run stops right at the
failing call — nothing after it is attempted. -/
theorem c1_migrate_ordered_halt (o : Oracle) (k : Kernel) (req : AddRequest)
    (res : InterfaceInfo)
    (hne : req.netns ≠ hostNs) (hns : ∀ x ∈ k.links, x.netns ≠ req.netns) :
    (DoSriovNetwork o k req res).trace <+: expectedTrace k req res ∧
    ((DoSriovNetwork o k req res).out = Except.ok () →
      (DoSriovNetwork o k req res).trace = expectedTrace k req res) ∧
    (∀ e, (DoSriovNetwork o k req res).out = Except.error e →
      ∃ n, (DoSriovNetwork o k req res).trace = (expectedTrace k req res).take (n + 1) ∧
        (DoSriovNetwork o k req res).trace.getLast? = some e.cause) := by
  rw [DoSriovNetwork_spec o k req res hne hns]
  cases hff : firstFailIdx (failsB o k) (expectedTrace k req res) with
  | none =>
    refine ⟨List.prefix_refl _, fun _ => rfl, fun e he => ?_⟩
    simp at he
  | some n =>
    have hn := firstFailIdx_lt _ _ _ hff
    refine ⟨takePref _ _, fun hok => ?_, fun e he => ?_⟩
    · simp at hok
    · simp only [] at he
      have hee : e = errorShape ((expectedTrace k req res).getD n (KernelCall.getNS "")) := by
        simpa using he.symm
      refine ⟨n, rfl, ?_⟩
      rw [hee, getLast_take _ n hn, cause_errorShape]

/-- C1 witness: the theorem applied to a concrete healthy migration of
eth0 into ns1. -/
theorem c1_witness :
    (reqEx.netns ≠ hostNs) ∧ (∀ x ∈ kEx.links, x.netns ≠ reqEx.netns) ∧
    ((DoSriovNetwork allOk kEx reqEx resEx).trace <+: expectedTrace kEx reqEx resEx ∧
      ((DoSriovNetwork allOk kEx reqEx resEx).out = Except.ok () →
        (DoSriovNetwork allOk kEx reqEx resEx).trace = expectedTrace kEx reqEx resEx) ∧
      (∀ e, (DoSriovNetwork allOk kEx reqEx resEx).out = Except.error e →
        ∃ n, (DoSriovNetwork allOk kEx reqEx resEx).trace
            = (expectedTrace kEx reqEx resEx).take (n + 1) ∧
          (DoSriovNetwork allOk kEx reqEx resEx).trace.getLast? = some e.cause)) :=
  ⟨by decide, by decide, c1_migrate_ordered_halt allOk kEx reqEx resEx (by decide) (by decide)⟩

/-- C5: when the target namespace path is not resolvable, DoSriovNetwork
fails immediately with the raw namespace-resolution error, the kernel
state is completely unchanged (no mutation of any link, address or route
state), and the only call attempted is the namespace resolution. -/
theorem c5_ns_not_found_no_mutation (o : Oracle) (k : Kernel) (req : AddRequest)
    (res : InterfaceInfo)
    (h : k.namespaces.contains req.netns = false) :
    (DoSriovNetwork o k req res).out
      = Except.error (GoError.kernel (KernelCall.getNS req.netns)) ∧
    (DoSriovNetwork o k req res).kernel = k ∧
    (DoSriovNetwork o k req res).trace = [KernelCall.getNS req.netns] := by
  have hcond : ¬(k.namespaces.contains req.netns && !(o (KernelCall.getNS req.netns))) = true := by
    rw [h]
    simp
  simp only [DoSriovNetwork, GetNS]
  rw [if_neg hcond]
  exact ⟨rfl, rfl, rfl⟩

/-- C5 witness: the theorem applied to a request whose namespace is
missing from the concrete kernel. -/
theorem c5_witness :
    kEx.namespaces.contains reqExBadNs.netns = false ∧
    ((DoSriovNetwork allOk kEx reqExBadNs resEx).out
        = Except.error (GoError.kernel (KernelCall.getNS reqExBadNs.netns)) ∧
      (DoSriovNetwork allOk kEx reqExBadNs resEx).kernel = kEx ∧
      (DoSriovNetwork allOk kEx reqExBadNs resEx).trace = [KernelCall.getNS reqExBadNs.netns]) :=
  ⟨by decide, c5_ns_not_found_no_mutation allOk kEx reqExBadNs resEx (by decide)⟩

/-- C3: the /check handler writes 200 iff all three checks pass; it
writes either 200 or 500; and the checks run in the fixed order infra
manager, CNI server, services flag, stopping at the first failure, so the
list of evaluated checks is exactly the prefix up to and including the
first failing one. -/
theorem c3_check_iff_all (hs : HealtServer) :
    ((getCheck hs).1 = 200 ↔
      checkInfraManagerLiveness hs = true ∧ checkCniServerLiveness hs = true ∧
        checkServicesServerStatus hs = true) ∧
    ((getCheck hs).1 = 200 ∨ (getCheck hs).1 = 500) ∧
    (checkInfraManagerLiveness hs = false → getCheck hs = (500, [CheckId.infraManager])) ∧
    (checkInfraManagerLiveness hs = true → checkCniServerLiveness hs = false →
      getCheck hs = (500, [CheckId.infraManager, CheckId.cniServer])) ∧
    (checkInfraManagerLiveness hs = true → checkCniServerLiveness hs = true →
      checkServicesServerStatus hs = false →
      getCheck hs = (500, [CheckId.infraManager, CheckId.cniServer, CheckId.servicesFlag])) ∧
    (checkInfraManagerLiveness hs = true → checkCniServerLiveness hs = true →
      checkServicesServerStatus hs = true →
      getCheck hs = (200, [CheckId.infraManager, CheckId.cniServer, CheckId.servicesFlag])) := by
  cases h1 : checkInfraManagerLiveness hs <;>
    cases h2 : checkCniServerLiveness hs <;>
      cases h3 : checkServicesServerStatus hs <;>
        simp [getCheck, h1, h2, h3]

/-- C3 witness: the theorem applied to a gateway over a fully healthy
environment and to one whose downstream dials fail. -/
theorem c3_witness :
    getCheck hsHealthy = (200, [CheckId.infraManager, CheckId.cniServer, CheckId.servicesFlag]) ∧
    getCheck hsDown = (500, [CheckId.infraManager]) :=
  ⟨(c3_check_iff_all hsHealthy).2.2.2.2.2 (by decide) (by decide) (by decide),
    (c3_check_iff_all hsDown).2.2.1 (by decide)⟩

/-- C8: one downstream probe counts as healthy exactly when the dial
succeeds, the health-check call succeeds, and the returned status is
SERVING; a failed dial, a failed check call, or a NOT_SERVING/UNKNOWN
status all yield false. -/
theorem c8_serving_iff (w : GrpcWorld) (t : String) :
    (checkGrpcServerStatus w t).1 = true ↔
      ∃ c, w.dial t = some c ∧ w.check c = some HealthStatus.SERVING := by
  cases hd : w.dial t with
  | none => simp [checkGrpcServerStatus, hd]
  | some conn =>
    cases hc : w.check conn with
    | none => simp [checkGrpcServerStatus, hd, hc]
    | some st =>
      cases st <;> simp [checkGrpcServerStatus, hd, hc]

/-- C8 witness: the equivalence applied to a serving world and to a dead
world. -/
theorem c8_witness :
    (checkGrpcServerStatus worldServing "svc:1").1 = true ∧
    (checkGrpcServerStatus worldDown "svc:1").1 = false :=
  ⟨(c8_serving_iff worldServing "svc:1").mpr ⟨0, rfl, rfl⟩, by decide⟩

/-- C10: the downstream probe always returns a boolean and its cleanup is
nil-safe: when the dial fails it returns false and performs no operation
on any connection (no health-check call, no close), and whenever a
connection was established the deferred close runs on it. -/
theorem c10_total_safe_cleanup (w : GrpcWorld) (t : String) :
    (w.dial t = none →
      (checkGrpcServerStatus w t).1 = false ∧
      (∀ c, GrpcEvent.closeOf c ∉ (checkGrpcServerStatus w t).2) ∧
      (∀ c, GrpcEvent.healthCheckOn c ∉ (checkGrpcServerStatus w t).2)) ∧
    (∀ c, w.dial t = some c → GrpcEvent.closeOf c ∈ (checkGrpcServerStatus w t).2) := by
  constructor
  · intro hd
    simp [checkGrpcServerStatus, hd]
  · intro c hd
    cases hc : w.check c <;> simp [checkGrpcServerStatus, hd, hc]

/-- C10 witness: the theorem applied to a world whose dial fails and to a
world that yields a connection. -/
theorem c10_witness :
    ((checkGrpcServerStatus worldDown "svc:1").1 = false ∧
      (∀ c, GrpcEvent.closeOf c ∉ (checkGrpcServerStatus worldDown "svc:1").2) ∧
      (∀ c, GrpcEvent.healthCheckOn c ∉ (checkGrpcServerStatus worldDown "svc:1").2)) ∧
    GrpcEvent.closeOf 0 ∈ (checkGrpcServerStatus worldServing "svc:1").2 :=
  ⟨(c10_total_safe_cleanup worldDown "svc:1").1 rfl,
    (c10_total_safe_cleanup worldServing "svc:1").2 0 rfl⟩

theorem DoSriov_trace_pref (o : Oracle) (k : Kernel) (req : AddRequest) (res : InterfaceInfo)
    (hne : req.netns ≠ hostNs) (hns : ∀ x ∈ k.links, x.netns ≠ req.netns) :
    (DoSriovNetwork o k req res).trace <+: expectedTrace k req res := by
  rw [DoSriovNetwork_spec o k req res hne hns]
  cases hff : firstFailIdx (failsB o k) (expectedTrace k req res)
  · exact List.prefix_refl _
  · exact takePref _ _

theorem mem_expectedTrace_cases (k : Kernel) (req : AddRequest) (res : InterfaceInfo)
    (c : KernelCall) (hc : c ∈ expectedTrace k req res) :
    c = KernelCall.getNS req.netns ∨
    c = KernelCall.linkByName hostNs res.interfaceName ∨
    c = KernelCall.linkSetDown ⟨hostIdx k res, hostNs⟩ ∨
    (0 < req.settings.mtu ∧
      c = KernelCall.linkSetMTU ⟨hostIdx k res, hostNs⟩ req.settings.mtu) ∨
    c = KernelCall.linkSetNsFd ⟨hostIdx k res, hostNs⟩ req.netns ∨
    c = KernelCall.linkSetName ⟨hostIdx k res, hostNs⟩ req.interfaceName ∨
    c = KernelCall.linkByName req.netns req.interfaceName ∨
    (∃ j a, c = KernelCall.addrAdd ⟨hostIdx k res, req.netns⟩ j a) ∨
    c = KernelCall.linkSetUp ⟨hostIdx k res, req.netns⟩ ∨
    (∃ j rt, c = KernelCall.routeAdd ⟨hostIdx k res, req.netns⟩ j rt) := by
  by_cases hm : 0 < req.settings.mtu
  · simp only [expectedTrace, if_pos hm, List.cons_append, List.nil_append, List.append_assoc,
      List.singleton_append, List.mem_cons, List.mem_append] at hc
    rcases hc with rfl | rfl | rfl | rfl | rfl | rfl | rfl | hA | rfl | hR
    · exact Or.inl rfl
    · exact Or.inr (Or.inl rfl)
    · exact Or.inr (Or.inr (Or.inl rfl))
    · exact Or.inr (Or.inr (Or.inr (Or.inl ⟨hm, rfl⟩)))
    · exact Or.inr (Or.inr (Or.inr (Or.inr (Or.inl rfl))))
    · exact Or.inr (Or.inr (Or.inr (Or.inr (Or.inr (Or.inl rfl)))))
    · exact Or.inr (Or.inr (Or.inr (Or.inr (Or.inr (Or.inr (Or.inl rfl))))))
    · obtain ⟨j, a2, rfl⟩ := addrCalls_mem _ 0 req.containerIps _ hA
      exact Or.inr (Or.inr (Or.inr (Or.inr (Or.inr (Or.inr (Or.inr
        (Or.inl ⟨j, a2, rfl⟩)))))))
    · exact Or.inr (Or.inr (Or.inr (Or.inr (Or.inr (Or.inr (Or.inr
        (Or.inr (Or.inl rfl))))))))
    · obtain ⟨j, rt2, rfl⟩ := routeCalls_mem _ 0 req.containerRoutes _ hR
      exact Or.inr (Or.inr (Or.inr (Or.inr (Or.inr (Or.inr (Or.inr
        (Or.inr (Or.inr ⟨j, rt2, rfl⟩))))))))
  · simp only [expectedTrace, if_neg hm, List.cons_append, List.nil_append, List.append_assoc,
      List.singleton_append, List.mem_cons, List.mem_append] at hc
    rcases hc with rfl | rfl | rfl | rfl | rfl | rfl | hA | rfl | hR
    · exact Or.inl rfl
    · exact Or.inr (Or.inl rfl)
    · exact Or.inr (Or.inr (Or.inl rfl))
    · exact Or.inr (Or.inr (Or.inr (Or.inr (Or.inl rfl))))
    · exact Or.inr (Or.inr (Or.inr (Or.inr (Or.inr (Or.inl rfl)))))
    · exact Or.inr (Or.inr (Or.inr (Or.inr (Or.inr (Or.inr (Or.inl rfl))))))
    · obtain ⟨j, a2, rfl⟩ := addrCalls_mem _ 0 req.containerIps _ hA
      exact Or.inr (Or.inr (Or.inr (Or.inr (Or.inr (Or.inr (Or.inr
        (Or.inl ⟨j, a2, rfl⟩)))))))
    · exact Or.inr (Or.inr (Or.inr (Or.inr (Or.inr (Or.inr (Or.inr
        (Or.inr (Or.inl rfl))))))))
    · obtain ⟨j, rt2, rfl⟩ := routeCalls_mem _ 0 req.containerRoutes _ hR
      exact Or.inr (Or.inr (Or.inr (Or.inr (Or.inr (Or.inr (Or.inr
        (Or.inr (Or.inr ⟨j, rt2, rfl⟩))))))))

theorem afterFirst_resolve_expectedTrace (k : Kernel) (req : AddRequest) (res : InterfaceInfo)
    (hne : req.netns ≠ hostNs) :
    afterFirst (isResolveIn req.netns) (expectedTrace k req res)
      = addrCalls ⟨hostIdx k res, req.netns⟩ 0 req.containerIps ++
        KernelCall.linkSetUp ⟨hostIdx k res, req.netns⟩ ::
        routeCalls ⟨hostIdx k res, req.netns⟩ 0 req.containerRoutes := by
  have hh : (hostNs == req.netns) = false := by
    simp [Ne.symm hne]
  have ht : (req.netns == req.netns) = true := by simp
  by_cases hm : 0 < req.settings.mtu <;>
    simp [expectedTrace, hm, afterFirst, List.dropWhile, isResolveIn, hh, ht]

/-- C2 (amended): after the namespace move, the rename is still performed
through the handle resolved in the host namespace (the stale one); it is
only from the re-resolution onwards that every mutating call goes through
the handle freshly resolved inside the target namespace. -/
theorem c2_fresh_handle_after_reresolve (o : Oracle) (k : Kernel) (req : AddRequest)
    (res : InterfaceInfo)
    (hne : req.netns ≠ hostNs) (hns : ∀ x ∈ k.links, x.netns ≠ req.netns) :
    (∀ h n, KernelCall.linkSetName h n ∈ (DoSriovNetwork o k req res).trace →
      h = ⟨hostIdx k res, hostNs⟩) ∧
    (∀ c ∈ afterFirst (isResolveIn req.netns) (DoSriovNetwork o k req res).trace,
      ∀ h, mutHandle c = some h → h = ⟨hostIdx k res, req.netns⟩) := by
  have hpre := DoSriov_trace_pref o k req res hne hns
  constructor
  · intro h n hmem
    have hcE := mem_expectedTrace_cases k req res _ (prefMem hpre hmem)
    rcases hcE with h1 | h1 | h1 | ⟨hmz, h1⟩ | h1 | h1 | h1 | ⟨j, a, h1⟩ | h1 | ⟨j, rt, h1⟩
    · simp at h1
    · simp at h1
    · simp at h1
    · simp at h1
    · simp at h1
    · injection h1 with e1 e2
    · simp at h1
    · simp at h1
    · simp at h1
    · simp at h1
  · intro c hcafter h hmut
    have hsub : afterFirst (isResolveIn req.netns) (DoSriovNetwork o k req res).trace
        <+: afterFirst (isResolveIn req.netns) (expectedTrace k req res) :=
      prefAfterFirst _ hpre
    have hcE : c ∈ afterFirst (isResolveIn req.netns) (expectedTrace k req res) :=
      prefMem hsub hcafter
    rw [afterFirst_resolve_expectedTrace k req res hne] at hcE
    rcases List.mem_append.mp hcE with hA | hSR
    · obtain ⟨j, a, rfl⟩ := addrCalls_mem _ 0 _ _ hA
      simp only [mutHandle, Option.some.injEq] at hmut
      exact hmut.symm
    · rcases List.mem_cons.mp hSR with rfl | hR
      · simp only [mutHandle, Option.some.injEq] at hmut
        exact hmut.symm
      · obtain ⟨j, rt, rfl⟩ := routeCalls_mem _ 0 _ _ hR
        simp only [mutHandle, Option.some.injEq] at hmut
        exact hmut.symm

/-- C2 counterexample: on a concrete healthy run the claim as stated is
false — after the move there is a mutating call (the rename) whose handle
was resolved in the host namespace, not in the target namespace. -/
theorem c2_counterexample :
    ¬ c2ClaimHolds reqEx.netns (DoSriovNetwork allOk kEx reqEx resEx).trace := by
  decide

/-- C2 witness: the amended theorem applied to the concrete migration. -/
theorem c2_witness :
    (reqEx.netns ≠ hostNs) ∧ (∀ x ∈ kEx.links, x.netns ≠ reqEx.netns) ∧
    ((∀ h n, KernelCall.linkSetName h n ∈ (DoSriovNetwork allOk kEx reqEx resEx).trace →
        h = ⟨hostIdx kEx resEx, hostNs⟩) ∧
      (∀ c ∈ afterFirst (isResolveIn reqEx.netns) (DoSriovNetwork allOk kEx reqEx resEx).trace,
        ∀ h, mutHandle c = some h → h = ⟨hostIdx kEx resEx, reqEx.netns⟩)) :=
  ⟨by decide, by decide,
    c2_fresh_handle_after_reresolve allOk kEx reqEx resEx (by decide) (by decide)⟩

/-- C9: the rename step is not guarded by a name-equality check: on every
successful run — in particular when the desired name equals the current
name — the rename call is in the attempted trace. -/
theorem c9_rename_unconditional (o : Oracle) (k : Kernel) (req : AddRequest)
    (res : InterfaceInfo)
    (hne : req.netns ≠ hostNs) (hns : ∀ x ∈ k.links, x.netns ≠ req.netns)
    (heq : req.interfaceName = res.interfaceName)
    (hok : (DoSriovNetwork o k req res).out = Except.ok ()) :
    KernelCall.linkSetName ⟨hostIdx k res, hostNs⟩ req.interfaceName
      ∈ (DoSriovNetwork o k req res).trace := by
  rw [DoSriovNetwork_spec o k req res hne hns] at hok ⊢
  revert hok
  cases hff : firstFailIdx (failsB o k) (expectedTrace k req res) with
  | none =>
    intro _
    by_cases hm : 0 < req.settings.mtu <;> simp [expectedTrace, hm]
  | some n =>
    intro hok
    simp at hok

/-- C9 witness: the theorem applied to a run that keeps the name eth0. -/
theorem c9_witness :
    (reqExSameName.netns ≠ hostNs) ∧ (∀ x ∈ kEx.links, x.netns ≠ reqExSameName.netns) ∧
    reqExSameName.interfaceName = resEx.interfaceName ∧
    (DoSriovNetwork allOk kEx reqExSameName resEx).out = Except.ok () ∧
    KernelCall.linkSetName ⟨hostIdx kEx resEx, hostNs⟩ reqExSameName.interfaceName
      ∈ (DoSriovNetwork allOk kEx reqExSameName resEx).trace :=
  ⟨by decide, by decide, by decide, by decide,
    c9_rename_unconditional allOk kEx reqExSameName resEx (by decide) (by decide)
      (by decide) (by decide)⟩

/-- C4 (amended): every failing run surfaces exactly the error shape of
its failing call (the last attempted call): host-phase failures return
the raw kernel error unchanged, while failures inside the target
namespace come back wrapped by newNsError, with a step-identifying
context message for the rename, address, set-up and route steps but not
for the re-resolution. -/
theorem c4_error_shapes (o : Oracle) (k : Kernel) (req : AddRequest) (res : InterfaceInfo)
    (hne : req.netns ≠ hostNs) (hns : ∀ x ∈ k.links, x.netns ≠ req.netns) :
    ∀ e, (DoSriovNetwork o k req res).out = Except.error e →
      ∃ c, (DoSriovNetwork o k req res).trace.getLast? = some c ∧
        e = errorShape c ∧ e.cause = c := by
  intro e he
  rw [DoSriovNetwork_spec o k req res hne hns] at he ⊢
  revert he
  cases hff : firstFailIdx (failsB o k) (expectedTrace k req res) with
  | none =>
    intro he
    simp at he
  | some n =>
    intro he
    have hn := firstFailIdx_lt _ _ _ hff
    have hee : e = errorShape ((expectedTrace k req res).getD n (KernelCall.getNS "")) := by
      simpa using he.symm
    refine ⟨(expectedTrace k req res).getD n (KernelCall.getNS ""), ?_, hee, ?_⟩
    · simpa using getLast_take _ n hn
    · rw [hee, cause_errorShape]

/-- C4 counterexample: a concrete failing run (fault injected at the
set-down step) returns the bare kernel error — not one of the claimed
typed wrappers carrying step context. -/
theorem c4_counterexample :
    (DoSriovNetwork (failAt (KernelCall.linkSetDown ⟨1, hostNs⟩)) kEx reqEx resEx).out
      = Except.error (GoError.kernel (KernelCall.linkSetDown ⟨1, hostNs⟩)) ∧
    GoError.isContextWrapped (GoError.kernel (KernelCall.linkSetDown ⟨1, hostNs⟩)) = false := by
  exact ⟨by decide, rfl⟩

/-- C4 witness: the amended theorem applied to the concrete failing run. -/
theorem c4_witness :
    (reqEx.netns ≠ hostNs) ∧ (∀ x ∈ kEx.links, x.netns ≠ reqEx.netns) ∧
    (∀ e, (DoSriovNetwork (failAt (KernelCall.linkSetDown ⟨1, hostNs⟩)) kEx reqEx resEx).out
        = Except.error e →
      ∃ c, (DoSriovNetwork (failAt (KernelCall.linkSetDown ⟨1, hostNs⟩))
          kEx reqEx resEx).trace.getLast? = some c ∧
        e = errorShape c ∧ e.cause = c) :=
  ⟨by decide, by decide,
    c4_error_shapes (failAt (KernelCall.linkSetDown ⟨1, hostNs⟩)) kEx reqEx resEx
      (by decide) (by decide)⟩

theorem addrCalls_filter_mtuOrMove (h : LinkHandle) :
    ∀ (ips : List String) (i : Nat), (addrCalls h i ips).filter isMtuOrMove = [] := by
  intro ips
  induction ips with
  | nil => intro i; rfl
  | cons ip ips ih => intro i; simp [addrCalls, isMtuOrMove, ih]

theorem routeCalls_filter_mtuOrMove (h : LinkHandle) :
    ∀ (rts : List String) (i : Nat), (routeCalls h i rts).filter isMtuOrMove = [] := by
  intro rts
  induction rts with
  | nil => intro i; rfl
  | cons rt rts ih => intro i; simp [routeCalls, isMtuOrMove, ih]

theorem filter_mtuOrMove_expectedTrace (k : Kernel) (req : AddRequest) (res : InterfaceInfo)
    (hm : 0 < req.settings.mtu) :
    (expectedTrace k req res).filter isMtuOrMove
      = [KernelCall.linkSetMTU ⟨hostIdx k res, hostNs⟩ req.settings.mtu,
         KernelCall.linkSetNsFd ⟨hostIdx k res, hostNs⟩ req.netns] := by
  simp [expectedTrace, if_pos hm, List.filter_append, isMtuOrMove,
    addrCalls_filter_mtuOrMove, routeCalls_filter_mtuOrMove]

theorem linkSetMTU_not_mem_expectedTrace (k : Kernel) (req : AddRequest) (res : InterfaceInfo)
    (hm : ¬0 < req.settings.mtu) (h : LinkHandle) (v : Int) :
    KernelCall.linkSetMTU h v ∉ expectedTrace k req res := by
  intro hmem
  have hcE := mem_expectedTrace_cases k req res _ hmem
  rcases hcE with h1 | h1 | h1 | ⟨hmz, h1⟩ | h1 | h1 | h1 | ⟨j, a, h1⟩ | h1 | ⟨j, rt, h1⟩
  · simp at h1
  · simp at h1
  · simp at h1
  · exact hm hmz
  · simp at h1
  · simp at h1
  · simp at h1
  · simp at h1
  · simp at h1
  · simp at h1

theorem DoSriov_kernel_foldl (o : Oracle) (k : Kernel) (req : AddRequest) (res : InterfaceInfo)
    (hne : req.netns ≠ hostNs) (hns : ∀ x ∈ k.links, x.netns ≠ req.netns) :
    ∃ cs, cs <+: expectedTrace k req res ∧
      (DoSriovNetwork o k req res).kernel = cs.foldl applyCall k := by
  rw [DoSriovNetwork_spec o k req res hne hns]
  cases hff : firstFailIdx (failsB o k) (expectedTrace k req res) with
  | none => exact ⟨expectedTrace k req res, List.prefix_refl _, rfl⟩
  | some n => exact ⟨(expectedTrace k req res).take n, takePref _ _, rfl⟩

theorem mtu_of_pairs {ls1 ls2 : List Link}
    (h : ls1.map (fun l => (l.idx, l.mtu)) = ls2.map (fun l => (l.idx, l.mtu))) :
    ls1.map (fun l => l.mtu) = ls2.map (fun l => l.mtu) := by
  have h2 := congrArg (List.map Prod.snd) h
  simpa [List.map_map, Function.comp] using h2

theorem updLink_mtu_set (k : Kernel) (i : Nat) (v : Int) (g : Link → Link)
    (hg : ∀ l, (g l).idx = l.idx) :
    ∀ l2 ∈ ((k.updLink i g).updLink i (fun l => { l with mtu := v })).links,
      l2.idx = i → l2.mtu = v := by
  intro l2 hmem hidx
  rw [updLink_updLink k i g _ hg] at hmem
  simp only [Kernel.updLink, List.mem_map] at hmem
  obtain ⟨x, hx, rfl⟩ := hmem
  by_cases hxi : (x.idx == i) = true
  · simp [hxi]
  · simp only [hxi, Bool.false_eq_true, if_false] at hidx ⊢
    exact absurd (by simp [hidx]) hxi

theorem tail_no_mtu (k : Kernel) (req : AddRequest) (res : InterfaceInfo) :
    ∀ c ∈ (KernelCall.linkSetNsFd ⟨hostIdx k res, hostNs⟩ req.netns ::
        KernelCall.linkSetName ⟨hostIdx k res, hostNs⟩ req.interfaceName ::
        KernelCall.linkByName req.netns req.interfaceName ::
        (addrCalls ⟨hostIdx k res, req.netns⟩ 0 req.containerIps ++
          KernelCall.linkSetUp ⟨hostIdx k res, req.netns⟩ ::
          routeCalls ⟨hostIdx k res, req.netns⟩ 0 req.containerRoutes)),
      ∀ h v, c ≠ KernelCall.linkSetMTU h v := by
  intro c hc h v
  simp only [List.mem_cons, List.mem_append] at hc
  rcases hc with rfl | rfl | rfl | hA | rfl | hR
  · simp
  · simp
  · simp
  · obtain ⟨j, a, rfl⟩ := addrCalls_mem _ 0 _ _ hA
    simp
  · simp
  · obtain ⟨j, rt, rfl⟩ := routeCalls_mem _ 0 _ _ hR
    simp

/-- C7: when the requested MTU is zero (proto3 absent), the MTU step is
skipped entirely — no MTU call appears in the trace and every link's MTU
after the run equals its MTU before; when the requested MTU is positive,
every MTU call in the trace precedes every namespace-move call (the MTU
is applied while the interface is still in the host namespace), and on a
successful run the MTU call was attempted and the migrated link's MTU is
the requested value. -/
theorem c7_mtu_conditional (o : Oracle) (k : Kernel) (req : AddRequest) (res : InterfaceInfo)
    (hne : req.netns ≠ hostNs) (hns : ∀ x ∈ k.links, x.netns ≠ req.netns) :
    (req.settings.mtu = 0 →
      (∀ h v, KernelCall.linkSetMTU h v ∉ (DoSriovNetwork o k req res).trace) ∧
      (DoSriovNetwork o k req res).kernel.links.map (fun l => l.mtu)
        = k.links.map (fun l => l.mtu)) ∧
    (0 < req.settings.mtu →
      ((DoSriovNetwork o k req res).trace.filter isMtuOrMove <+:
        [KernelCall.linkSetMTU ⟨hostIdx k res, hostNs⟩ req.settings.mtu,
         KernelCall.linkSetNsFd ⟨hostIdx k res, hostNs⟩ req.netns]) ∧
      ((DoSriovNetwork o k req res).out = Except.ok () →
        KernelCall.linkSetMTU ⟨hostIdx k res, hostNs⟩ req.settings.mtu
          ∈ (DoSriovNetwork o k req res).trace ∧
        ∀ l ∈ (DoSriovNetwork o k req res).kernel.links,
          l.idx = hostIdx k res → l.mtu = req.settings.mtu)) := by
  have hpre := DoSriov_trace_pref o k req res hne hns
  constructor
  · intro hmtu0
    have hm : ¬0 < req.settings.mtu := by rw [hmtu0]; exact lt_irrefl 0
    constructor
    · intro h v hmem2
      exact linkSetMTU_not_mem_expectedTrace k req res hm h v (prefMem hpre hmem2)
    · obtain ⟨cs, hcs, hker⟩ := DoSriov_kernel_foldl o k req res hne hns
      rw [hker]
      have hnomtu : ∀ c ∈ cs, ∀ h v, c ≠ KernelCall.linkSetMTU h v := by
        intro c hc h v hceq
        exact linkSetMTU_not_mem_expectedTrace k req res hm h v (prefMem hcs (hceq ▸ hc))
      exact mtu_of_pairs (foldl_mtuPairs cs k hnomtu)
  · intro hm
    constructor
    · have hpf := prefFilter isMtuOrMove hpre
      rwa [filter_mtuOrMove_expectedTrace k req res hm] at hpf
    · intro hok
      rw [DoSriovNetwork_spec o k req res hne hns] at hok ⊢
      revert hok
      cases hff : firstFailIdx (failsB o k) (expectedTrace k req res) with
      | some n =>
        intro hok
        simp at hok
      | none =>
        intro _
        constructor
        · simp [expectedTrace, if_pos hm]
        · have hEsplit : expectedTrace k req res
              = [KernelCall.getNS req.netns, KernelCall.linkByName hostNs res.interfaceName,
                  KernelCall.linkSetDown ⟨hostIdx k res, hostNs⟩,
                  KernelCall.linkSetMTU ⟨hostIdx k res, hostNs⟩ req.settings.mtu]
                ++ (KernelCall.linkSetNsFd ⟨hostIdx k res, hostNs⟩ req.netns ::
                    KernelCall.linkSetName ⟨hostIdx k res, hostNs⟩ req.interfaceName ::
                    KernelCall.linkByName req.netns req.interfaceName ::
                    (addrCalls ⟨hostIdx k res, req.netns⟩ 0 req.containerIps ++
                      KernelCall.linkSetUp ⟨hostIdx k res, req.netns⟩ ::
                      routeCalls ⟨hostIdx k res, req.netns⟩ 0 req.containerRoutes)) := by
            simp [expectedTrace, if_pos hm]
          intro l hl hlidx
          rw [hEsplit, List.foldl_append] at hl
          have hBpairs := foldl_mtuPairs
            (KernelCall.linkSetNsFd ⟨hostIdx k res, hostNs⟩ req.netns ::
              KernelCall.linkSetName ⟨hostIdx k res, hostNs⟩ req.interfaceName ::
              KernelCall.linkByName req.netns req.interfaceName ::
              (addrCalls ⟨hostIdx k res, req.netns⟩ 0 req.containerIps ++
                KernelCall.linkSetUp ⟨hostIdx k res, req.netns⟩ ::
                routeCalls ⟨hostIdx k res, req.netns⟩ 0 req.containerRoutes))
            ([KernelCall.getNS req.netns, KernelCall.linkByName hostNs res.interfaceName,
              KernelCall.linkSetDown ⟨hostIdx k res, hostNs⟩,
              KernelCall.linkSetMTU ⟨hostIdx k res, hostNs⟩ req.settings.mtu].foldl
                applyCall k)
            (tail_no_mtu k req res)
          have hlp : (l.idx, l.mtu) ∈
              ((KernelCall.linkSetNsFd ⟨hostIdx k res, hostNs⟩ req.netns ::
                KernelCall.linkSetName ⟨hostIdx k res, hostNs⟩ req.interfaceName ::
                KernelCall.linkByName req.netns req.interfaceName ::
                (addrCalls ⟨hostIdx k res, req.netns⟩ 0 req.containerIps ++
                  KernelCall.linkSetUp ⟨hostIdx k res, req.netns⟩ ::
                  routeCalls ⟨hostIdx k res, req.netns⟩ 0 req.containerRoutes)).foldl
                applyCall
                ([KernelCall.getNS req.netns, KernelCall.linkByName hostNs res.interfaceName,
                  KernelCall.linkSetDown ⟨hostIdx k res, hostNs⟩,
                  KernelCall.linkSetMTU ⟨hostIdx k res, hostNs⟩ req.settings.mtu].foldl
                    applyCall k)).links.map (fun l => (l.idx, l.mtu)) :=
            List.mem_map_of_mem _ hl
          rw [hBpairs] at hlp
          obtain ⟨x, hx, hpair⟩ := List.mem_map.mp hlp
          have hxidx : x.idx = l.idx := congrArg Prod.fst hpair
          have hxmtu : x.mtu = l.mtu := congrArg Prod.snd hpair
          have hAfold : [KernelCall.getNS req.netns,
              KernelCall.linkByName hostNs res.interfaceName,
              KernelCall.linkSetDown ⟨hostIdx k res, hostNs⟩,
              KernelCall.linkSetMTU ⟨hostIdx k res, hostNs⟩ req.settings.mtu].foldl
                applyCall k
              = (k.updLink (hostIdx k res) (fun l => { l with isUp := false })).updLink
                  (hostIdx k res) (fun l => { l with mtu := req.settings.mtu }) := rfl
          rw [hAfold] at hx
          exact hxmtu ▸ updLink_mtu_set k (hostIdx k res) req.settings.mtu
            (fun l => { l with isUp := false }) (fun _ => rfl) x hx (hxidx.trans hlidx)

/-- C7 witness: the theorem applied to a concrete request with MTU 1400
(positive branch) — its hypotheses discharged on the concrete kernel. -/
theorem c7_witness :
    (reqEx.netns ≠ hostNs) ∧ (∀ x ∈ kEx.links, x.netns ≠ reqEx.netns) ∧
    ((reqEx.settings.mtu = 0 →
      (∀ h v, KernelCall.linkSetMTU h v ∉ (DoSriovNetwork allOk kEx reqEx resEx).trace) ∧
      (DoSriovNetwork allOk kEx reqEx resEx).kernel.links.map (fun l => l.mtu)
        = kEx.links.map (fun l => l.mtu)) ∧
    (0 < reqEx.settings.mtu →
      ((DoSriovNetwork allOk kEx reqEx resEx).trace.filter isMtuOrMove <+:
        [KernelCall.linkSetMTU ⟨hostIdx kEx resEx, hostNs⟩ reqEx.settings.mtu,
         KernelCall.linkSetNsFd ⟨hostIdx kEx resEx, hostNs⟩ reqEx.netns]) ∧
      ((DoSriovNetwork allOk kEx reqEx resEx).out = Except.ok () →
        KernelCall.linkSetMTU ⟨hostIdx kEx resEx, hostNs⟩ reqEx.settings.mtu
          ∈ (DoSriovNetwork allOk kEx reqEx resEx).trace ∧
        ∀ l ∈ (DoSriovNetwork allOk kEx reqEx resEx).kernel.links,
          l.idx = hostIdx kEx resEx → l.mtu = reqEx.settings.mtu))) :=
  ⟨by decide, by decide,
    c7_mtu_conditional allOk kEx reqEx resEx (by decide) (by decide)⟩

theorem firstFailIdx_addrCalls_target (p : KernelCall → Bool) (h : LinkHandle) (i : Nat)
    (a0 : String)
    (hp : ∀ m a, p (KernelCall.addrAdd h m a) = true ↔ (m = i ∧ a = a0)) :
    ∀ (ips : List String) (j : Nat), j ≤ i → i - j < ips.length →
      ips.getD (i - j) "" = a0 →
      firstFailIdx p (addrCalls h j ips) = some (i - j) := by
  intro ips
  induction ips with
  | nil => intro j hj hlen _; simp at hlen
  | cons a as ih =>
    intro j hj hlen hget
    by_cases hji : j = i
    · have h0 : i - j = 0 := by omega
      rw [h0] at hget
      simp only [List.getD_cons_zero] at hget
      have hpc : p (KernelCall.addrAdd h j a) = true := (hp j a).mpr ⟨hji, hget⟩
      simp [addrCalls, firstFailIdx, hpc, h0]
    · have hpc : p (KernelCall.addrAdd h j a) = false := by
        cases hb : p (KernelCall.addrAdd h j a)
        · rfl
        · exact absurd ((hp j a).mp hb).1 hji
      have h1 : j + 1 ≤ i := by omega
      have h2 : i - (j + 1) < as.length := by
        simp only [List.length_cons] at hlen
        omega
      have h3 : as.getD (i - (j + 1)) "" = a0 := by
        have harith : i - j = (i - (j + 1)) + 1 := by omega
        rw [harith] at hget
        simpa [List.getD_cons_succ] using hget
      simp only [addrCalls, firstFailIdx, hpc, Bool.false_eq_true, if_false]
      rw [ih (j + 1) h1 h2 h3]
      simp only [Option.map, Option.some.injEq]
      omega

theorem firstFailIdx_routeCalls_target (p : KernelCall → Bool) (h : LinkHandle) (i : Nat)
    (rt0 : String)
    (hp : ∀ m rt, p (KernelCall.routeAdd h m rt) = true ↔ (m = i ∧ rt = rt0)) :
    ∀ (rts : List String) (j : Nat), j ≤ i → i - j < rts.length →
      rts.getD (i - j) "" = rt0 →
      firstFailIdx p (routeCalls h j rts) = some (i - j) := by
  intro rts
  induction rts with
  | nil => intro j hj hlen _; simp at hlen
  | cons rt rts ih =>
    intro j hj hlen hget
    by_cases hji : j = i
    · have h0 : i - j = 0 := by omega
      rw [h0] at hget
      simp only [List.getD_cons_zero] at hget
      have hpc : p (KernelCall.routeAdd h j rt) = true := (hp j rt).mpr ⟨hji, hget⟩
      simp [routeCalls, firstFailIdx, hpc, h0]
    · have hpc : p (KernelCall.routeAdd h j rt) = false := by
        cases hb : p (KernelCall.routeAdd h j rt)
        · rfl
        · exact absurd ((hp j rt).mp hb).1 hji
      have h1 : j + 1 ≤ i := by omega
      have h2 : i - (j + 1) < rts.length := by
        simp only [List.length_cons] at hlen
        omega
      have h3 : rts.getD (i - (j + 1)) "" = rt0 := by
        have harith : i - j = (i - (j + 1)) + 1 := by omega
        rw [harith] at hget
        simpa [List.getD_cons_succ] using hget
      simp only [routeCalls, firstFailIdx, hpc, Bool.false_eq_true, if_false]
      rw [ih (j + 1) h1 h2 h3]
      simp only [Option.map, Option.some.injEq]
      omega

theorem firstFailIdx_append_right (p : KernelCall → Bool) (H T : List KernelCall) (m : Nat)
    (hH : firstFailIdx p H = none) (hT : firstFailIdx p T = some m) :
    firstFailIdx p (H ++ T) = some (H.length + m) := by
  rw [firstFailIdx_append, hH, hT]
  simp [Nat.add_comm]

theorem getD_append_add (H T : List KernelCall) (m : Nat) (d : KernelCall) :
    (H ++ T).getD (H.length + m) d = T.getD m d := by
  rw [List.getD_append_right _ _ _ _ (by omega)]
  congr 1
  omega

theorem take_append_add (H T : List KernelCall) (m : Nat) :
    (H ++ T).take (H.length + m) = H ++ T.take m := by
  rw [List.take_append_eq_append_take, List.take_of_length_le (by omega),
    show H.length + m - H.length = m from by omega]

theorem oracle_off (o : Oracle) (tgt : KernelCall) (hiff : ∀ c, o c = true ↔ c = tgt) :
    ∀ c, c ≠ tgt → o c = false := by
  intro c hc
  cases hb : o c
  · rfl
  · exact absurd ((hiff c).mp hb) hc

theorem failsB_false_of_off (o : Oracle) (k : Kernel) (req : AddRequest) (res : InterfaceInfo)
    (l0 : Link)
    (hcont : k.namespaces.contains req.netns = true)
    (hfind : k.links.find? (fun l => l.name == res.interfaceName && l.netns == hostNs) = some l0)
    (hne2 : (req.netns == hostNs) = false)
    (hoff : ∀ c, (∀ h2 j2 a2, c ≠ KernelCall.addrAdd h2 j2 a2) →
      (∀ h2 j2 rt2, c ≠ KernelCall.routeAdd h2 j2 rt2) → o c = false) :
    failsB o k (KernelCall.getNS req.netns) = false ∧
    failsB o k (KernelCall.linkByName hostNs res.interfaceName) = false ∧
    (∀ h2, failsB o k (KernelCall.linkSetDown h2) = false) ∧
    (∀ h2 v, failsB o k (KernelCall.linkSetMTU h2 v) = false) ∧
    (∀ h2 t, failsB o k (KernelCall.linkSetNsFd h2 t) = false) ∧
    (∀ h2 n2, failsB o k (KernelCall.linkSetName h2 n2) = false) ∧
    failsB o k (KernelCall.linkByName req.netns req.interfaceName) = false ∧
    (∀ h2, failsB o k (KernelCall.linkSetUp h2) = false) := by
  refine ⟨?_, ?_, ?_, ?_, ?_, ?_, ?_, ?_⟩
  · simp only [failsB]
    rw [hcont, hoff (KernelCall.getNS req.netns) (by simp) (by simp)]
    rfl
  · simp only [failsB]
    rw [if_pos (show (hostNs == hostNs) = true by simp), hfind,
      hoff (KernelCall.linkByName hostNs res.interfaceName) (by simp) (by simp)]
    rfl
  · intro h2
    exact hoff _ (by simp) (by simp)
  · intro h2 v
    exact hoff _ (by simp) (by simp)
  · intro h2 t
    exact hoff _ (by simp) (by simp)
  · intro h2 n2
    exact hoff _ (by simp) (by simp)
  · simp only [failsB]
    rw [if_neg (by simp [hne2])]
    exact hoff _ (by simp) (by simp)
  · intro h2
    exact hoff _ (by simp) (by simp)

theorem c6_addr_half (o1 : Oracle) (k : Kernel) (req : AddRequest) (res : InterfaceInfo)
    (i : Nat) (l0 : Link)
    (hne : req.netns ≠ hostNs) (hns : ∀ x ∈ k.links, x.netns ≠ req.netns)
    (hcont : k.namespaces.contains req.netns = true)
    (hfind : k.links.find? (fun l => l.name == res.interfaceName && l.netns == hostNs) = some l0)
    (hi : i < req.containerIps.length)
    (ho1 : ∀ c, o1 c = true ↔
      c = KernelCall.addrAdd ⟨hostIdx k res, req.netns⟩ i (req.containerIps.getD i "")) :
    (DoSriovNetwork o1 k req res).out
      = Except.error (GoError.nsErr (GoError.wrap "cannot set link address"
          (GoError.kernel (KernelCall.addrAdd ⟨hostIdx k res, req.netns⟩ i
            (req.containerIps.getD i ""))))) ∧
    (DoSriovNetwork o1 k req res).trace.filterMap addrIdxOf = List.range (i + 1) ∧
    (DoSriovNetwork o1 k req res).kernel.addrs
      = k.addrs ++ (req.containerIps.take i).map (fun a => (hostIdx k res, a)) ∧
    (DoSriovNetwork o1 k req res).kernel.routes = k.routes ∧
    (DoSriovNetwork o1 k req res).trace.filterMap routeIdxOf = [] := by
  have hne2 : (req.netns == hostNs) = false := by simp [hne]
  have hoffA : ∀ c, (∀ h2 j2 a2, c ≠ KernelCall.addrAdd h2 j2 a2) →
      (∀ h2 j2 rt2, c ≠ KernelCall.routeAdd h2 j2 rt2) → o1 c = false := by
    intro c hca _
    exact oracle_off o1 _ ho1 c (hca _ _ _)
  obtain ⟨hq1, hq2, hq3, hq4, hq5, hq6, hq7, hq8⟩ :=
    failsB_false_of_off o1 k req res l0 hcont hfind hne2 hoffA
  have hp1 : ∀ m a, failsB o1 k (KernelCall.addrAdd ⟨hostIdx k res, req.netns⟩ m a) = true ↔
      (m = i ∧ a = req.containerIps.getD i "") := by
    intro m a
    rw [show failsB o1 k (KernelCall.addrAdd ⟨hostIdx k res, req.netns⟩ m a)
        = o1 (KernelCall.addrAdd ⟨hostIdx k res, req.netns⟩ m a) from rfl, ho1]
    simp
  have hsegA : firstFailIdx (failsB o1 k)
      (addrCalls ⟨hostIdx k res, req.netns⟩ 0 req.containerIps) = some i := by
    have hgoal := firstFailIdx_addrCalls_target (failsB o1 k) ⟨hostIdx k res, req.netns⟩ i
      (req.containerIps.getD i "") hp1 req.containerIps 0 (Nat.zero_le i)
      (by simpa using hi) (by simp)
    simpa using hgoal
  have hsegTA : firstFailIdx (failsB o1 k)
      (addrCalls ⟨hostIdx k res, req.netns⟩ 0 req.containerIps ++
        (KernelCall.linkSetUp ⟨hostIdx k res, req.netns⟩ ::
          routeCalls ⟨hostIdx k res, req.netns⟩ 0 req.containerRoutes)) = some i := by
    rw [firstFailIdx_append, hsegA]
  have hEsplit : expectedTrace k req res
      = ([KernelCall.getNS req.netns,
          KernelCall.linkByName hostNs res.interfaceName,
          KernelCall.linkSetDown ⟨hostIdx k res, hostNs⟩]
        ++ (if 0 < req.settings.mtu then
              [KernelCall.linkSetMTU ⟨hostIdx k res, hostNs⟩ req.settings.mtu] else [])
        ++ [KernelCall.linkSetNsFd ⟨hostIdx k res, hostNs⟩ req.netns,
            KernelCall.linkSetName ⟨hostIdx k res, hostNs⟩ req.interfaceName,
            KernelCall.linkByName req.netns req.interfaceName])
        ++ (addrCalls ⟨hostIdx k res, req.netns⟩ 0 req.containerIps ++
            (KernelCall.linkSetUp ⟨hostIdx k res, req.netns⟩ ::
              routeCalls ⟨hostIdx k res, req.netns⟩ 0 req.containerRoutes)) := by
    by_cases hm : 0 < req.settings.mtu <;> simp [expectedTrace, hm]
  have hHnone : firstFailIdx (failsB o1 k)
      ([KernelCall.getNS req.netns,
        KernelCall.linkByName hostNs res.interfaceName,
        KernelCall.linkSetDown ⟨hostIdx k res, hostNs⟩]
      ++ (if 0 < req.settings.mtu then
            [KernelCall.linkSetMTU ⟨hostIdx k res, hostNs⟩ req.settings.mtu] else [])
      ++ [KernelCall.linkSetNsFd ⟨hostIdx k res, hostNs⟩ req.netns,
          KernelCall.linkSetName ⟨hostIdx k res, hostNs⟩ req.interfaceName,
          KernelCall.linkByName req.netns req.interfaceName]) = none := by
    by_cases hm : 0 < req.settings.mtu <;>
      simp [hm, firstFailIdx, hq1, hq2, hq3, hq4, hq5, hq6, hq7]
  have hAnoaddr : ∀ c ∈ ([KernelCall.getNS req.netns,
        KernelCall.linkByName hostNs res.interfaceName,
        KernelCall.linkSetDown ⟨hostIdx k res, hostNs⟩]
      ++ (if 0 < req.settings.mtu then
            [KernelCall.linkSetMTU ⟨hostIdx k res, hostNs⟩ req.settings.mtu] else [])
      ++ [KernelCall.linkSetNsFd ⟨hostIdx k res, hostNs⟩ req.netns,
          KernelCall.linkSetName ⟨hostIdx k res, hostNs⟩ req.interfaceName,
          KernelCall.linkByName req.netns req.interfaceName]),
      ∀ h2 j2 a2, c ≠ KernelCall.addrAdd h2 j2 a2 := by
    intro c hc h2 j2 a2
    by_cases hm : 0 < req.settings.mtu
    · simp [hm, List.mem_cons] at hc
      rcases hc with rfl | rfl | rfl | rfl | rfl | rfl | rfl <;> simp
    · simp [hm, List.mem_cons] at hc
      rcases hc with rfl | rfl | rfl | rfl | rfl | rfl <;> simp
  have hAnoroute : ∀ c ∈ ([KernelCall.getNS req.netns,
        KernelCall.linkByName hostNs res.interfaceName,
        KernelCall.linkSetDown ⟨hostIdx k res, hostNs⟩]
      ++ (if 0 < req.settings.mtu then
            [KernelCall.linkSetMTU ⟨hostIdx k res, hostNs⟩ req.settings.mtu] else [])
      ++ [KernelCall.linkSetNsFd ⟨hostIdx k res, hostNs⟩ req.netns,
          KernelCall.linkSetName ⟨hostIdx k res, hostNs⟩ req.interfaceName,
          KernelCall.linkByName req.netns req.interfaceName]),
      ∀ h2 j2 rt2, c ≠ KernelCall.routeAdd h2 j2 rt2 := by
    intro c hc h2 j2 rt2
    by_cases hm : 0 < req.settings.mtu
    · simp [hm, List.mem_cons] at hc
      rcases hc with rfl | rfl | rfl | rfl | rfl | rfl | rfl <;> simp
    · simp [hm, List.mem_cons] at hc
      rcases hc with rfl | rfl | rfl | rfl | rfl | rfl <;> simp
  have hAfmAddr : ([KernelCall.getNS req.netns,
        KernelCall.linkByName hostNs res.interfaceName,
        KernelCall.linkSetDown ⟨hostIdx k res, hostNs⟩]
      ++ (if 0 < req.settings.mtu then
            [KernelCall.linkSetMTU ⟨hostIdx k res, hostNs⟩ req.settings.mtu] else [])
      ++ [KernelCall.linkSetNsFd ⟨hostIdx k res, hostNs⟩ req.netns,
          KernelCall.linkSetName ⟨hostIdx k res, hostNs⟩ req.interfaceName,
          KernelCall.linkByName req.netns req.interfaceName]).filterMap addrIdxOf = [] := by
    by_cases hm : 0 < req.settings.mtu <;> simp [hm, addrIdxOf]
  have hAfmRoute : ([KernelCall.getNS req.netns,
        KernelCall.linkByName hostNs res.interfaceName,
        KernelCall.linkSetDown ⟨hostIdx k res, hostNs⟩]
      ++ (if 0 < req.settings.mtu then
            [KernelCall.linkSetMTU ⟨hostIdx k res, hostNs⟩ req.settings.mtu] else [])
      ++ [KernelCall.linkSetNsFd ⟨hostIdx k res, hostNs⟩ req.netns,
          KernelCall.linkSetName ⟨hostIdx k res, hostNs⟩ req.interfaceName,
          KernelCall.linkByName req.netns req.interfaceName]).filterMap routeIdxOf = [] := by
    by_cases hm : 0 < req.settings.mtu <;> simp [hm, routeIdxOf]
  have hff1 : firstFailIdx (failsB o1 k) (expectedTrace k req res)
      = some (([KernelCall.getNS req.netns,
          KernelCall.linkByName hostNs res.interfaceName,
          KernelCall.linkSetDown ⟨hostIdx k res, hostNs⟩]
        ++ (if 0 < req.settings.mtu then
              [KernelCall.linkSetMTU ⟨hostIdx k res, hostNs⟩ req.settings.mtu] else [])
        ++ [KernelCall.linkSetNsFd ⟨hostIdx k res, hostNs⟩ req.netns,
            KernelCall.linkSetName ⟨hostIdx k res, hostNs⟩ req.interfaceName,
            KernelCall.linkByName req.netns req.interfaceName]).length + i) := by
    rw [hEsplit]
    exact firstFailIdx_append_right _ _ _ _ hHnone hsegTA
  have hrun := DoSriovNetwork_spec o1 k req res hne hns
  rw [hff1] at hrun
  have hTtake1 : (addrCalls ⟨hostIdx k res, req.netns⟩ 0 req.containerIps ++
      (KernelCall.linkSetUp ⟨hostIdx k res, req.netns⟩ ::
        routeCalls ⟨hostIdx k res, req.netns⟩ 0 req.containerRoutes)).take (i + 1)
      = addrCalls ⟨hostIdx k res, req.netns⟩ 0 (req.containerIps.take (i + 1)) := by
    rw [List.take_append_eq_append_take,
      show i + 1 - (addrCalls ⟨hostIdx k res, req.netns⟩ 0 req.containerIps).length = 0
        from by rw [addrCalls_length]; omega,
      List.take_zero, List.append_nil, addrCalls_take]
  have hTtake0 : (addrCalls ⟨hostIdx k res, req.netns⟩ 0 req.containerIps ++
      (KernelCall.linkSetUp ⟨hostIdx k res, req.netns⟩ ::
        routeCalls ⟨hostIdx k res, req.netns⟩ 0 req.containerRoutes)).take i
      = addrCalls ⟨hostIdx k res, req.netns⟩ 0 (req.containerIps.take i) := by
    rw [List.take_append_eq_append_take,
      show i - (addrCalls ⟨hostIdx k res, req.netns⟩ 0 req.containerIps).length = 0
        from by rw [addrCalls_length]; omega,
      List.take_zero, List.append_nil, addrCalls_take]
  have hgetD : (expectedTrace k req res).getD
      (([KernelCall.getNS req.netns,
          KernelCall.linkByName hostNs res.interfaceName,
          KernelCall.linkSetDown ⟨hostIdx k res, hostNs⟩]
        ++ (if 0 < req.settings.mtu then
              [KernelCall.linkSetMTU ⟨hostIdx k res, hostNs⟩ req.settings.mtu] else [])
        ++ [KernelCall.linkSetNsFd ⟨hostIdx k res, hostNs⟩ req.netns,
            KernelCall.linkSetName ⟨hostIdx k res, hostNs⟩ req.interfaceName,
            KernelCall.linkByName req.netns req.interfaceName]).length + i)
        (KernelCall.getNS "")
      = KernelCall.addrAdd ⟨hostIdx k res, req.netns⟩ i (req.containerIps.getD i "") := by
    rw [hEsplit, getD_append_add,
      List.getD_append _ _ _ _ (by rw [addrCalls_length]; exact hi),
      addrCalls_getD _ _ _ _ hi]
    simp
  refine ⟨?_, ?_, ?_, ?_, ?_⟩
  · rw [hrun]
    simp only []
    rw [hgetD]
    simp [errorShape]
  · rw [hrun]
    simp only []
    rw [hEsplit, show (([KernelCall.getNS req.netns,
          KernelCall.linkByName hostNs res.interfaceName,
          KernelCall.linkSetDown ⟨hostIdx k res, hostNs⟩]
        ++ (if 0 < req.settings.mtu then
              [KernelCall.linkSetMTU ⟨hostIdx k res, hostNs⟩ req.settings.mtu] else [])
        ++ [KernelCall.linkSetNsFd ⟨hostIdx k res, hostNs⟩ req.netns,
            KernelCall.linkSetName ⟨hostIdx k res, hostNs⟩ req.interfaceName,
            KernelCall.linkByName req.netns req.interfaceName]).length + i) + 1
        = ([KernelCall.getNS req.netns,
          KernelCall.linkByName hostNs res.interfaceName,
          KernelCall.linkSetDown ⟨hostIdx k res, hostNs⟩]
        ++ (if 0 < req.settings.mtu then
              [KernelCall.linkSetMTU ⟨hostIdx k res, hostNs⟩ req.settings.mtu] else [])
        ++ [KernelCall.linkSetNsFd ⟨hostIdx k res, hostNs⟩ req.netns,
            KernelCall.linkSetName ⟨hostIdx k res, hostNs⟩ req.interfaceName,
            KernelCall.linkByName req.netns req.interfaceName]).length + (i + 1) from rfl,
      take_append_add, hTtake1, List.filterMap_append, hAfmAddr, addrCalls_filterMap_addr]
    rw [show (req.containerIps.take (i + 1)).length = i + 1
      from by rw [List.length_take]; omega]
    simp [List.range_eq_range']
  · rw [hrun]
    simp only []
    rw [hEsplit, take_append_add, hTtake0, List.foldl_append, foldl_addrCalls]
    simp only []
    rw [foldl_addrs _ _ hAnoaddr]
  · rw [hrun]
    simp only []
    rw [hEsplit, take_append_add, hTtake0, List.foldl_append, foldl_addrCalls]
    simp only []
    rw [foldl_routes _ _ hAnoroute]
  · rw [hrun]
    simp only []
    rw [hEsplit, show (([KernelCall.getNS req.netns,
          KernelCall.linkByName hostNs res.interfaceName,
          KernelCall.linkSetDown ⟨hostIdx k res, hostNs⟩]
        ++ (if 0 < req.settings.mtu then
              [KernelCall.linkSetMTU ⟨hostIdx k res, hostNs⟩ req.settings.mtu] else [])
        ++ [KernelCall.linkSetNsFd ⟨hostIdx k res, hostNs⟩ req.netns,
            KernelCall.linkSetName ⟨hostIdx k res, hostNs⟩ req.interfaceName,
            KernelCall.linkByName req.netns req.interfaceName]).length + i) + 1
        = ([KernelCall.getNS req.netns,
          KernelCall.linkByName hostNs res.interfaceName,
          KernelCall.linkSetDown ⟨hostIdx k res, hostNs⟩]
        ++ (if 0 < req.settings.mtu then
              [KernelCall.linkSetMTU ⟨hostIdx k res, hostNs⟩ req.settings.mtu] else [])
        ++ [KernelCall.linkSetNsFd ⟨hostIdx k res, hostNs⟩ req.netns,
            KernelCall.linkSetName ⟨hostIdx k res, hostNs⟩ req.interfaceName,
            KernelCall.linkByName req.netns req.interfaceName]).length + (i + 1) from rfl,
      take_append_add, hTtake1, List.filterMap_append, hAfmRoute, addrCalls_filterMap_route]
    simp

theorem c6_route_half (o2 : Oracle) (k : Kernel) (req : AddRequest) (res : InterfaceInfo)
    (j : Nat) (l0 : Link)
    (hne : req.netns ≠ hostNs) (hns : ∀ x ∈ k.links, x.netns ≠ req.netns)
    (hcont : k.namespaces.contains req.netns = true)
    (hfind : k.links.find? (fun l => l.name == res.interfaceName && l.netns == hostNs) = some l0)
    (hj : j < req.containerRoutes.length)
    (ho2 : ∀ c, o2 c = true ↔
      c = KernelCall.routeAdd ⟨hostIdx k res, req.netns⟩ j (req.containerRoutes.getD j "")) :
    (DoSriovNetwork o2 k req res).out
      = Except.error (GoError.nsErr (GoError.wrap "cannot setup routes"
          (GoError.kernel (KernelCall.routeAdd ⟨hostIdx k res, req.netns⟩ j
            (req.containerRoutes.getD j ""))))) ∧
    (DoSriovNetwork o2 k req res).trace.filterMap routeIdxOf = List.range (j + 1) ∧
    (DoSriovNetwork o2 k req res).kernel.routes
      = k.routes ++ (req.containerRoutes.take j).map (fun rt => (hostIdx k res, rt)) ∧
    (DoSriovNetwork o2 k req res).kernel.addrs
      = k.addrs ++ req.containerIps.map (fun a => (hostIdx k res, a)) ∧
    (DoSriovNetwork o2 k req res).trace.filterMap addrIdxOf
      = List.range req.containerIps.length := by
  have hne2 : (req.netns == hostNs) = false := by simp [hne]
  have hoffR : ∀ c, (∀ h2 j2 a2, c ≠ KernelCall.addrAdd h2 j2 a2) →
      (∀ h2 j2 rt2, c ≠ KernelCall.routeAdd h2 j2 rt2) → o2 c = false := by
    intro c _ hcr
    exact oracle_off o2 _ ho2 c (hcr _ _ _)
  obtain ⟨hq1, hq2, hq3, hq4, hq5, hq6, hq7, hq8⟩ :=
    failsB_false_of_off o2 k req res l0 hcont hfind hne2 hoffR
  have hp2 : ∀ m rt, failsB o2 k (KernelCall.routeAdd ⟨hostIdx k res, req.netns⟩ m rt) = true ↔
      (m = j ∧ rt = req.containerRoutes.getD j "") := by
    intro m rt
    rw [show failsB o2 k (KernelCall.routeAdd ⟨hostIdx k res, req.netns⟩ m rt)
        = o2 (KernelCall.routeAdd ⟨hostIdx k res, req.netns⟩ m rt) from rfl, ho2]
    simp
  have hsegR : firstFailIdx (failsB o2 k)
      (routeCalls ⟨hostIdx k res, req.netns⟩ 0 req.containerRoutes) = some j := by
    have hgoal := firstFailIdx_routeCalls_target (failsB o2 k) ⟨hostIdx k res, req.netns⟩ j
      (req.containerRoutes.getD j "") hp2 req.containerRoutes 0 (Nat.zero_le j)
      (by simpa using hj) (by simp)
    simpa using hgoal
  have hAnone : firstFailIdx (failsB o2 k)
      ([KernelCall.getNS req.netns,
        KernelCall.linkByName hostNs res.interfaceName,
        KernelCall.linkSetDown ⟨hostIdx k res, hostNs⟩]
      ++ (if 0 < req.settings.mtu then
            [KernelCall.linkSetMTU ⟨hostIdx k res, hostNs⟩ req.settings.mtu] else [])
      ++ [KernelCall.linkSetNsFd ⟨hostIdx k res, hostNs⟩ req.netns,
          KernelCall.linkSetName ⟨hostIdx k res, hostNs⟩ req.interfaceName,
          KernelCall.linkByName req.netns req.interfaceName]) = none := by
    by_cases hm : 0 < req.settings.mtu <;>
      simp [hm, firstFailIdx, hq1, hq2, hq3, hq4, hq5, hq6, hq7]
  have haddrNone : firstFailIdx (failsB o2 k)
      (addrCalls ⟨hostIdx k res, req.netns⟩ 0 req.containerIps) = none :=
    firstFailIdx_addrCalls_none (failsB o2 k) ⟨hostIdx k res, req.netns⟩
      (fun m a => oracle_off o2 _ ho2 _ (by simp)) req.containerIps 0
  have hTailNone : firstFailIdx (failsB o2 k)
      (addrCalls ⟨hostIdx k res, req.netns⟩ 0 req.containerIps ++
        [KernelCall.linkSetUp ⟨hostIdx k res, req.netns⟩]) = none := by
    rw [firstFailIdx_append, haddrNone]
    simp [firstFailIdx, hq8]
  have hHrNone : firstFailIdx (failsB o2 k)
      (([KernelCall.getNS req.netns,
          KernelCall.linkByName hostNs res.interfaceName,
          KernelCall.linkSetDown ⟨hostIdx k res, hostNs⟩]
        ++ (if 0 < req.settings.mtu then
              [KernelCall.linkSetMTU ⟨hostIdx k res, hostNs⟩ req.settings.mtu] else [])
        ++ [KernelCall.linkSetNsFd ⟨hostIdx k res, hostNs⟩ req.netns,
            KernelCall.linkSetName ⟨hostIdx k res, hostNs⟩ req.interfaceName,
            KernelCall.linkByName req.netns req.interfaceName])
      ++ (addrCalls ⟨hostIdx k res, req.netns⟩ 0 req.containerIps ++
          [KernelCall.linkSetUp ⟨hostIdx k res, req.netns⟩])) = none := by
    rw [firstFailIdx_append, hAnone, hTailNone]
    rfl
  have hEsplit2 : expectedTrace k req res
      = (([KernelCall.getNS req.netns,
          KernelCall.linkByName hostNs res.interfaceName,
          KernelCall.linkSetDown ⟨hostIdx k res, hostNs⟩]
        ++ (if 0 < req.settings.mtu then
              [KernelCall.linkSetMTU ⟨hostIdx k res, hostNs⟩ req.settings.mtu] else [])
        ++ [KernelCall.linkSetNsFd ⟨hostIdx k res, hostNs⟩ req.netns,
            KernelCall.linkSetName ⟨hostIdx k res, hostNs⟩ req.interfaceName,
            KernelCall.linkByName req.netns req.interfaceName])
      ++ (addrCalls ⟨hostIdx k res, req.netns⟩ 0 req.containerIps ++
          [KernelCall.linkSetUp ⟨hostIdx k res, req.netns⟩]))
      ++ routeCalls ⟨hostIdx k res, req.netns⟩ 0 req.containerRoutes := by
    by_cases hm : 0 < req.settings.mtu <;> simp [expectedTrace, hm]
  have hAnoaddr : ∀ c ∈ ([KernelCall.getNS req.netns,
        KernelCall.linkByName hostNs res.interfaceName,
        KernelCall.linkSetDown ⟨hostIdx k res, hostNs⟩]
      ++ (if 0 < req.settings.mtu then
            [KernelCall.linkSetMTU ⟨hostIdx k res, hostNs⟩ req.settings.mtu] else [])
      ++ [KernelCall.linkSetNsFd ⟨hostIdx k res, hostNs⟩ req.netns,
          KernelCall.linkSetName ⟨hostIdx k res, hostNs⟩ req.interfaceName,
          KernelCall.linkByName req.netns req.interfaceName]),
      ∀ h2 j2 a2, c ≠ KernelCall.addrAdd h2 j2 a2 := by
    intro c hc h2 j2 a2
    by_cases hm : 0 < req.settings.mtu
    · simp [hm, List.mem_cons] at hc
      rcases hc with rfl | rfl | rfl | rfl | rfl | rfl | rfl <;> simp
    · simp [hm, List.mem_cons] at hc
      rcases hc with rfl | rfl | rfl | rfl | rfl | rfl <;> simp
  have hAnoroute : ∀ c ∈ ([KernelCall.getNS req.netns,
        KernelCall.linkByName hostNs res.interfaceName,
        KernelCall.linkSetDown ⟨hostIdx k res, hostNs⟩]
      ++ (if 0 < req.settings.mtu then
            [KernelCall.linkSetMTU ⟨hostIdx k res, hostNs⟩ req.settings.mtu] else [])
      ++ [KernelCall.linkSetNsFd ⟨hostIdx k res, hostNs⟩ req.netns,
          KernelCall.linkSetName ⟨hostIdx k res, hostNs⟩ req.interfaceName,
          KernelCall.linkByName req.netns req.interfaceName]),
      ∀ h2 j2 rt2, c ≠ KernelCall.routeAdd h2 j2 rt2 := by
    intro c hc h2 j2 rt2
    by_cases hm : 0 < req.settings.mtu
    · simp [hm, List.mem_cons] at hc
      rcases hc with rfl | rfl | rfl | rfl | rfl | rfl | rfl <;> simp
    · simp [hm, List.mem_cons] at hc
      rcases hc with rfl | rfl | rfl | rfl | rfl | rfl <;> simp
  have hAfmAddr : ([KernelCall.getNS req.netns,
        KernelCall.linkByName hostNs res.interfaceName,
        KernelCall.linkSetDown ⟨hostIdx k res, hostNs⟩]
      ++ (if 0 < req.settings.mtu then
            [KernelCall.linkSetMTU ⟨hostIdx k res, hostNs⟩ req.settings.mtu] else [])
      ++ [KernelCall.linkSetNsFd ⟨hostIdx k res, hostNs⟩ req.netns,
          KernelCall.linkSetName ⟨hostIdx k res, hostNs⟩ req.interfaceName,
          KernelCall.linkByName req.netns req.interfaceName]).filterMap addrIdxOf = [] := by
    by_cases hm : 0 < req.settings.mtu <;> simp [hm, addrIdxOf]
  have hAfmRoute : ([KernelCall.getNS req.netns,
        KernelCall.linkByName hostNs res.interfaceName,
        KernelCall.linkSetDown ⟨hostIdx k res, hostNs⟩]
      ++ (if 0 < req.settings.mtu then
            [KernelCall.linkSetMTU ⟨hostIdx k res, hostNs⟩ req.settings.mtu] else [])
      ++ [KernelCall.linkSetNsFd ⟨hostIdx k res, hostNs⟩ req.netns,
          KernelCall.linkSetName ⟨hostIdx k res, hostNs⟩ req.interfaceName,
          KernelCall.linkByName req.netns req.interfaceName]).filterMap routeIdxOf = [] := by
    by_cases hm : 0 < req.settings.mtu <;> simp [hm, routeIdxOf]
  have hHrfmRoute : (([KernelCall.getNS req.netns,
          KernelCall.linkByName hostNs res.interfaceName,
          KernelCall.linkSetDown ⟨hostIdx k res, hostNs⟩]
        ++ (if 0 < req.settings.mtu then
              [KernelCall.linkSetMTU ⟨hostIdx k res, hostNs⟩ req.settings.mtu] else [])
        ++ [KernelCall.linkSetNsFd ⟨hostIdx k res, hostNs⟩ req.netns,
            KernelCall.linkSetName ⟨hostIdx k res, hostNs⟩ req.interfaceName,
            KernelCall.linkByName req.netns req.interfaceName])
      ++ (addrCalls ⟨hostIdx k res, req.netns⟩ 0 req.containerIps ++
          [KernelCall.linkSetUp ⟨hostIdx k res, req.netns⟩])).filterMap routeIdxOf = [] := by
    rw [List.filterMap_append, hAfmRoute, List.filterMap_append, addrCalls_filterMap_route]
    simp [routeIdxOf]
  have hHrfmAddr : (([KernelCall.getNS req.netns,
          KernelCall.linkByName hostNs res.interfaceName,
          KernelCall.linkSetDown ⟨hostIdx k res, hostNs⟩]
        ++ (if 0 < req.settings.mtu then
              [KernelCall.linkSetMTU ⟨hostIdx k res, hostNs⟩ req.settings.mtu] else [])
        ++ [KernelCall.linkSetNsFd ⟨hostIdx k res, hostNs⟩ req.netns,
            KernelCall.linkSetName ⟨hostIdx k res, hostNs⟩ req.interfaceName,
            KernelCall.linkByName req.netns req.interfaceName])
      ++ (addrCalls ⟨hostIdx k res, req.netns⟩ 0 req.containerIps ++
          [KernelCall.linkSetUp ⟨hostIdx k res, req.netns⟩])).filterMap addrIdxOf
      = List.range' 0 req.containerIps.length := by
    rw [List.filterMap_append, hAfmAddr, List.filterMap_append, addrCalls_filterMap_addr]
    simp [addrIdxOf]
  have hHrNoroute : ∀ c ∈ (([KernelCall.getNS req.netns,
          KernelCall.linkByName hostNs res.interfaceName,
          KernelCall.linkSetDown ⟨hostIdx k res, hostNs⟩]
        ++ (if 0 < req.settings.mtu then
              [KernelCall.linkSetMTU ⟨hostIdx k res, hostNs⟩ req.settings.mtu] else [])
        ++ [KernelCall.linkSetNsFd ⟨hostIdx k res, hostNs⟩ req.netns,
            KernelCall.linkSetName ⟨hostIdx k res, hostNs⟩ req.interfaceName,
            KernelCall.linkByName req.netns req.interfaceName])
      ++ (addrCalls ⟨hostIdx k res, req.netns⟩ 0 req.containerIps ++
          [KernelCall.linkSetUp ⟨hostIdx k res, req.netns⟩])),
      ∀ h2 j2 rt2, c ≠ KernelCall.routeAdd h2 j2 rt2 := by
    intro c hc h2 j2 rt2
    rcases List.mem_append.mp hc with hc1 | hc2
    · exact hAnoroute c hc1 h2 j2 rt2
    · rcases List.mem_append.mp hc2 with hc3 | hc4
      · obtain ⟨m, a, rfl⟩ := addrCalls_mem _ _ _ _ hc3
        simp
      · simp at hc4
        subst hc4
        simp
  have hff2 : firstFailIdx (failsB o2 k) (expectedTrace k req res)
      = some ((([KernelCall.getNS req.netns,
          KernelCall.linkByName hostNs res.interfaceName,
          KernelCall.linkSetDown ⟨hostIdx k res, hostNs⟩]
        ++ (if 0 < req.settings.mtu then
              [KernelCall.linkSetMTU ⟨hostIdx k res, hostNs⟩ req.settings.mtu] else [])
        ++ [KernelCall.linkSetNsFd ⟨hostIdx k res, hostNs⟩ req.netns,
            KernelCall.linkSetName ⟨hostIdx k res, hostNs⟩ req.interfaceName,
            KernelCall.linkByName req.netns req.interfaceName])
      ++ (addrCalls ⟨hostIdx k res, req.netns⟩ 0 req.containerIps ++
          [KernelCall.linkSetUp ⟨hostIdx k res, req.netns⟩])).length + j) := by
    rw [hEsplit2]
    exact firstFailIdx_append_right _ _ _ _ hHrNone hsegR
  have hrun := DoSriovNetwork_spec o2 k req res hne hns
  rw [hff2] at hrun
  have hgetD2 : (expectedTrace k req res).getD
      ((([KernelCall.getNS req.netns,
          KernelCall.linkByName hostNs res.interfaceName,
          KernelCall.linkSetDown ⟨hostIdx k res, hostNs⟩]
        ++ (if 0 < req.settings.mtu then
              [KernelCall.linkSetMTU ⟨hostIdx k res, hostNs⟩ req.settings.mtu] else [])
        ++ [KernelCall.linkSetNsFd ⟨hostIdx k res, hostNs⟩ req.netns,
            KernelCall.linkSetName ⟨hostIdx k res, hostNs⟩ req.interfaceName,
            KernelCall.linkByName req.netns req.interfaceName])
      ++ (addrCalls ⟨hostIdx k res, req.netns⟩ 0 req.containerIps ++
          [KernelCall.linkSetUp ⟨hostIdx k res, req.netns⟩])).length + j)
        (KernelCall.getNS "")
      = KernelCall.routeAdd ⟨hostIdx k res, req.netns⟩ j (req.containerRoutes.getD j "") := by
    rw [hEsplit2, getD_append_add, routeCalls_getD _ _ _ _ hj]
    simp
  have hTtakeR1 : (routeCalls ⟨hostIdx k res, req.netns⟩ 0 req.containerRoutes).take (j + 1)
      = routeCalls ⟨hostIdx k res, req.netns⟩ 0 (req.containerRoutes.take (j + 1)) :=
    routeCalls_take _ _ _ _
  have hTtakeR0 : (routeCalls ⟨hostIdx k res, req.netns⟩ 0 req.containerRoutes).take j
      = routeCalls ⟨hostIdx k res, req.netns⟩ 0 (req.containerRoutes.take j) :=
    routeCalls_take _ _ _ _
  refine ⟨?_, ?_, ?_, ?_, ?_⟩
  · rw [hrun]
    simp only []
    rw [hgetD2]
    simp [errorShape]
  · rw [hrun]
    simp only []
    rw [hEsplit2, show ((([KernelCall.getNS req.netns,
          KernelCall.linkByName hostNs res.interfaceName,
          KernelCall.linkSetDown ⟨hostIdx k res, hostNs⟩]
        ++ (if 0 < req.settings.mtu then
              [KernelCall.linkSetMTU ⟨hostIdx k res, hostNs⟩ req.settings.mtu] else [])
        ++ [KernelCall.linkSetNsFd ⟨hostIdx k res, hostNs⟩ req.netns,
            KernelCall.linkSetName ⟨hostIdx k res, hostNs⟩ req.interfaceName,
            KernelCall.linkByName req.netns req.interfaceName])
      ++ (addrCalls ⟨hostIdx k res, req.netns⟩ 0 req.containerIps ++
          [KernelCall.linkSetUp ⟨hostIdx k res, req.netns⟩])).length + j) + 1
      = (([KernelCall.getNS req.netns,
          KernelCall.linkByName hostNs res.interfaceName,
          KernelCall.linkSetDown ⟨hostIdx k res, hostNs⟩]
        ++ (if 0 < req.settings.mtu then
              [KernelCall.linkSetMTU ⟨hostIdx k res, hostNs⟩ req.settings.mtu] else [])
        ++ [KernelCall.linkSetNsFd ⟨hostIdx k res, hostNs⟩ req.netns,
            KernelCall.linkSetName ⟨hostIdx k res, hostNs⟩ req.interfaceName,
            KernelCall.linkByName req.netns req.interfaceName])
      ++ (addrCalls ⟨hostIdx k res, req.netns⟩ 0 req.containerIps ++
          [KernelCall.linkSetUp ⟨hostIdx k res, req.netns⟩])).length + (j + 1) from rfl,
      take_append_add, hTtakeR1, List.filterMap_append, hHrfmRoute, routeCalls_filterMap_route]
    rw [show (req.containerRoutes.take (j + 1)).length = j + 1
      from by rw [List.length_take]; omega]
    simp [List.range_eq_range']
  · rw [hrun]
    simp only []
    rw [hEsplit2, take_append_add, hTtakeR0, List.foldl_append, foldl_routeCalls]
    simp only []
    rw [foldl_routes _ _ hHrNoroute]
  · rw [hrun]
    simp only []
    rw [hEsplit2, take_append_add, hTtakeR0, List.foldl_append, foldl_routeCalls]
    simp only []
    rw [List.foldl_append, List.foldl_append, foldl_addrCalls]
    simp only [List.foldl_cons, List.foldl_nil]
    rw [applyCall_addrs _ _ (by simp)]
    simp only []
    rw [foldl_addrs _ _ hAnoaddr]
  · rw [hrun]
    simp only []
    rw [hEsplit2, show ((([KernelCall.getNS req.netns,
          KernelCall.linkByName hostNs res.interfaceName,
          KernelCall.linkSetDown ⟨hostIdx k res, hostNs⟩]
        ++ (if 0 < req.settings.mtu then
              [KernelCall.linkSetMTU ⟨hostIdx k res, hostNs⟩ req.settings.mtu] else [])
        ++ [KernelCall.linkSetNsFd ⟨hostIdx k res, hostNs⟩ req.netns,
            KernelCall.linkSetName ⟨hostIdx k res, hostNs⟩ req.interfaceName,
            KernelCall.linkByName req.netns req.interfaceName])
      ++ (addrCalls ⟨hostIdx k res, req.netns⟩ 0 req.containerIps ++
          [KernelCall.linkSetUp ⟨hostIdx k res, req.netns⟩])).length + j) + 1
      = (([KernelCall.getNS req.netns,
          KernelCall.linkByName hostNs res.interfaceName,
          KernelCall.linkSetDown ⟨hostIdx k res, hostNs⟩]
        ++ (if 0 < req.settings.mtu then
              [KernelCall.linkSetMTU ⟨hostIdx k res, hostNs⟩ req.settings.mtu] else [])
        ++ [KernelCall.linkSetNsFd ⟨hostIdx k res, hostNs⟩ req.netns,
            KernelCall.linkSetName ⟨hostIdx k res, hostNs⟩ req.interfaceName,
            KernelCall.linkByName req.netns req.interfaceName])
      ++ (addrCalls ⟨hostIdx k res, req.netns⟩ 0 req.containerIps ++
          [KernelCall.linkSetUp ⟨hostIdx k res, req.netns⟩])).length + (j + 1) from rfl,
      take_append_add, hTtakeR1, List.filterMap_append, hHrfmAddr, routeCalls_filterMap_addr]
    simp [List.range_eq_range']

/-- C6: address entries (and likewise route entries) are applied strictly in list
order. If the address entry at index `i` fails, the attempted address indices are
exactly `0..i` (so entries `i+1..` are never attempted), the kernel holds exactly
the addresses of indices `0..i-1`, no route was touched, and the surfaced error
carries exactly the failing call at index `i` wrapped in the address-assignment
context. Symmetrically for a route failure at index `j`: attempted route indices
are exactly `0..j`, exactly routes `0..j-1` are applied, every address had already
been applied, and the error carries the failing route call at index `j` in the
route-setup context. -/
theorem c6_indexed_failure (o1 o2 : Oracle) (k : Kernel) (req : AddRequest)
    (res : InterfaceInfo) (i j : Nat) (l0 : Link)
    (hne : req.netns ≠ hostNs) (hns : ∀ x ∈ k.links, x.netns ≠ req.netns)
    (hcont : k.namespaces.contains req.netns = true)
    (hfind : k.links.find? (fun l => l.name == res.interfaceName && l.netns == hostNs) = some l0)
    (hi : i < req.containerIps.length)
    (ho1 : ∀ c, o1 c = true ↔
      c = KernelCall.addrAdd ⟨hostIdx k res, req.netns⟩ i (req.containerIps.getD i ""))
    (hj : j < req.containerRoutes.length)
    (ho2 : ∀ c, o2 c = true ↔
      c = KernelCall.routeAdd ⟨hostIdx k res, req.netns⟩ j (req.containerRoutes.getD j "")) :
    ((DoSriovNetwork o1 k req res).out
        = Except.error (GoError.nsErr (GoError.wrap "cannot set link address"
            (GoError.kernel (KernelCall.addrAdd ⟨hostIdx k res, req.netns⟩ i
              (req.containerIps.getD i ""))))) ∧
      (DoSriovNetwork o1 k req res).trace.filterMap addrIdxOf = List.range (i + 1) ∧
      (DoSriovNetwork o1 k req res).kernel.addrs
        = k.addrs ++ (req.containerIps.take i).map (fun a => (hostIdx k res, a)) ∧
      (DoSriovNetwork o1 k req res).kernel.routes = k.routes ∧
      (DoSriovNetwork o1 k req res).trace.filterMap routeIdxOf = []) ∧
    ((DoSriovNetwork o2 k req res).out
        = Except.error (GoError.nsErr (GoError.wrap "cannot setup routes"
            (GoError.kernel (KernelCall.routeAdd ⟨hostIdx k res, req.netns⟩ j
              (req.containerRoutes.getD j ""))))) ∧
      (DoSriovNetwork o2 k req res).trace.filterMap routeIdxOf = List.range (j + 1) ∧
      (DoSriovNetwork o2 k req res).kernel.routes
        = k.routes ++ (req.containerRoutes.take j).map (fun rt => (hostIdx k res, rt)) ∧
      (DoSriovNetwork o2 k req res).kernel.addrs
        = k.addrs ++ req.containerIps.map (fun a => (hostIdx k res, a)) ∧
      (DoSriovNetwork o2 k req res).trace.filterMap addrIdxOf
        = List.range req.containerIps.length) :=
  ⟨c6_addr_half o1 k req res i l0 hne hns hcont hfind hi ho1,
   c6_route_half o2 k req res j l0 hne hns hcont hfind hj ho2⟩

theorem c6_witness :
    (DoSriovNetwork
        (fun c => decide (c = KernelCall.addrAdd ⟨hostIdx kEx resEx, reqEx.netns⟩ 0
          (reqEx.containerIps.getD 0 ""))) kEx reqEx resEx).out
      = Except.error (GoError.nsErr (GoError.wrap "cannot set link address"
          (GoError.kernel (KernelCall.addrAdd ⟨hostIdx kEx resEx, reqEx.netns⟩ 0
            (reqEx.containerIps.getD 0 ""))))) ∧
    (DoSriovNetwork
        (fun c => decide (c = KernelCall.routeAdd ⟨hostIdx kEx resEx, reqEx.netns⟩ 0
          (reqEx.containerRoutes.getD 0 ""))) kEx reqEx resEx).out
      = Except.error (GoError.nsErr (GoError.wrap "cannot setup routes"
          (GoError.kernel (KernelCall.routeAdd ⟨hostIdx kEx resEx, reqEx.netns⟩ 0
            (reqEx.containerRoutes.getD 0 ""))))) := by
  have hmain := c6_indexed_failure
    (fun c => decide (c = KernelCall.addrAdd ⟨hostIdx kEx resEx, reqEx.netns⟩ 0
      (reqEx.containerIps.getD 0 "")))
    (fun c => decide (c = KernelCall.routeAdd ⟨hostIdx kEx resEx, reqEx.netns⟩ 0
      (reqEx.containerRoutes.getD 0 "")))
    kEx reqEx resEx 0 0 ⟨1, "eth0", hostNs, 1500, true⟩
    (by decide) (by decide) (by decide) (by decide) (by decide)
    (fun c => ⟨of_decide_eq_true, decide_eq_true⟩) (by decide)
    (fun c => ⟨of_decide_eq_true, decide_eq_true⟩)
  exact ⟨hmain.1.1, hmain.2.1⟩

end Offload
